import Mathlib

/-
Verification development for the REBNF grammar compiler and CST matcher of
src/brutus/ebnf.py.  The Python code is shallowly embedded: lists are Lean
lists, in-place mutation becomes functional state passing, Python exceptions
become an explicit error type, and the unbounded recursion and while-loops of
the matcher are indexed by a fuel parameter (running out of fuel is its own
error value, distinct from every Python exception).

The module src/brutus/tokenizer.py is not present in the source tree; the
pieces that depend on it (the generic Tokenizer mechanics and the notion of a
symbol's name and terminal-ness for tokenizer-made symbols) are modelled from
the spec where noted.
-/

set_option maxHeartbeats 1000000

namespace Brutus

/-- Symbols.  One constructor per named symbol object created in ebnf.py:
the meta-lexer symbols registered on EBNFTokenizer (lines 27-44), the
EBNFTerminalSymbol and EBNFNonTerminalSymbol constants (lines 61-68), plus the
per-grammar symbols made by EBNFParser.init: EBNFNonTerminalSymbol(key) for a
rule name, EBNFTerminalSymbol(key) for a terminal name, and QTerminal(key) for
the target tokenizer.  Symbols compare by identity in Python; each constant is
created once, so structural equality is faithful. -/
inductive Sym where
  | RULE | TERM | LITERAL
  | STARTREPEAT | ENDREPEAT | STARTGROUP | ENDGROUP
  | STARTOPTIONAL | ENDOPTIONAL | STARTATL | ENDATL
  | OR | DEFINE | ENDDEFINE
  | REP | OPT | ATL
  | REPEATING | SEQUENCE | OPTIONAL | ATLEASTONCE | ALTERNATING
  | ebnfNT (name : String)
  | ebnfT (name : String)
  | qTerm (name : String)
  deriving DecidableEq, Repr

/-- The name attribute of a symbol, as used in error messages and in the
match_terminal comparison parser_node.token.lexeme == tokens[0].symbol.name. -/
def Sym.name : Sym → String
  | .RULE => "RULE" | .TERM => "TERM" | .LITERAL => "LITERAL"
  | .STARTREPEAT => "STARTREPEAT" | .ENDREPEAT => "ENDREPEAT"
  | .STARTGROUP => "STARTGROUP" | .ENDGROUP => "ENDGROUP"
  | .STARTOPTIONAL => "STARTOPTIONAL" | .ENDOPTIONAL => "ENDOPTIONAL"
  | .STARTATL => "STARTATL" | .ENDATL => "ENDATL"
  | .OR => "OR" | .DEFINE => "DEFINE" | .ENDDEFINE => "ENDDEFINE"
  | .REP => "REP" | .OPT => "OPT" | .ATL => "ATL"
  | .REPEATING => "REPEATING" | .SEQUENCE => "SEQUENCE"
  | .OPTIONAL => "OPTIONAL" | .ATLEASTONCE => "ATLEASTONCE"
  | .ALTERNATING => "ALTERNATING"
  | .ebnfNT n => n | .ebnfT n => n | .qTerm n => n

/-- is_terminal.  EBNFTerminalSymbol carries True, EBNFNonTerminalSymbol
False (ebnf.py lines 17-24).  The five structural symbols and the per-rule
symbols are EBNFNonTerminalSymbol.  Symbols created by the missing Tokenizer
class (RULE, TERM, LITERAL, the brackets, OR, DEFINE, ENDDEFINE) and QTerminal
are modelled from the spec as terminal: section 3 classifies RULE, LITERAL and
TERM parser-node leaves as terminal, which is what drives the dispatch in
EBNFParser.match. -/
def Sym.is_terminal : Sym → Bool
  | .REPEATING | .SEQUENCE | .OPTIONAL | .ATLEASTONCE | .ALTERNATING => false
  | .ebnfNT _ => false
  | _ => true

/-- Token record (symbol, lexeme).  The start and end offsets carried by the
Python Token never influence matching and are omitted. -/
structure EBNFToken where
  symbol : Sym
  lexeme : String
  deriving DecidableEq, Repr

/-- EBNFNode(token) with a children list; a parser-node tree. -/
inductive EBNFNode where
  | mk (token : EBNFToken) (children : List EBNFNode)

def EBNFNode.token : EBNFNode → EBNFToken
  | .mk t _ => t

def EBNFNode.children : EBNFNode → List EBNFNode
  | .mk _ c => c

def EBNFNode.alternate (n : EBNFNode) : Bool := n.token.symbol = .ALTERNATING

def EBNFNode.optional (n : EBNFNode) : Bool := n.token.symbol = .OPTIONAL

def EBNFNode.repeating (n : EBNFNode) : Bool := n.token.symbol = .REPEATING

def EBNFNode.oneormore (n : EBNFNode) : Bool := n.token.symbol = .ATLEASTONCE

/-- key property of EBNFNode: a short code describing the node. -/
def EBNFNode.key (n : EBNFNode) : String :=
  match n.children with
  | [] => "trm"
  | _ =>
    let res := (if n.repeating then "rep" else "")
      ++ (if n.optional then "opt" else "")
      ++ (if n.oneormore then "atl" else "")
      ++ (if n.alternate then "alt" else "")
    if res = "" then "seq" else res

/-- str() of an EBNFNode, as interpolated into error messages. -/
def EBNFNode.pystr (n : EBNFNode) : String :=
  "EBNFNode <" ++ n.key ++ ":" ++ n.token.lexeme ++ ">"

/-- Python exceptions raised by the embedded code, plus outOfFuel marking a
computation that did not finish within the given fuel. -/
inductive PyErr where
  | syntaxError (msg : String)
  | valueError (msg : String)
  | lexicalError (msg : String)
  | keyError
  | attributeError
  | indexError
  | unboundLocal
  | stopIteration
  | outOfFuel
  deriving DecidableEq, Repr

/-- SEQ_MAP of ebnf.py line 129. -/
def seq_map : Sym → Sym
  | .STARTGROUP => .SEQUENCE
  | .STARTREPEAT => .REPEATING
  | .STARTOPTIONAL => .OPTIONAL
  | .STARTATL => .ATLEASTONCE
  | s => s

/-- SUFFIX_MAP of ebnf.py line 131. -/
def suffix_map : Sym → Sym
  | .REP => .REPEATING
  | .OPT => .OPTIONAL
  | .ATL => .ATLEASTONCE
  | s => s

/-- groupings of ebnf.py line 133: opener to matching closer. -/
def groupings : Sym → Sym
  | .STARTGROUP => .ENDGROUP
  | .STARTREPEAT => .ENDREPEAT
  | .STARTOPTIONAL => .ENDOPTIONAL
  | .STARTATL => .ENDATL
  | s => s

def isStartSym (s : Sym) : Bool :=
  s = .STARTGROUP ∨ s = .STARTREPEAT ∨ s = .STARTOPTIONAL ∨ s = .STARTATL

def isEndSym (s : Sym) : Bool :=
  s = .ENDGROUP ∨ s = .ENDREPEAT ∨ s = .ENDOPTIONAL ∨ s = .ENDATL

def isSuffixSym (s : Sym) : Bool :=
  s = .REP ∨ s = .OPT ∨ s = .ATL

/-- name.split('-')[0]: the prefix of the name up to the first dash. -/
def baseName (name : String) : String :=
  String.mk (name.toList.takeWhile (fun c => c ≠ '-'))

/-- groupcount, the (module-global) Counter keyed by rule base name, threaded
explicitly as an association list. -/
def gcGet (gc : List (String × Nat)) (k : String) : Nat :=
  ((gc.lookup k).getD 0)

def gcSet (gc : List (String × Nat)) (k : String) (v : Nat) : List (String × Nat) :=
  match gc with
  | [] => [(k, v)]
  | (k', v') :: rest => if k' = k then (k, v) :: rest else (k', v') :: gcSet rest k v

def EBNFNode.setSym (n : EBNFNode) (s : Sym) : EBNFNode :=
  .mk ⟨s, n.token.lexeme⟩ n.children

def EBNFNode.addChild (n : EBNFNode) (c : EBNFNode) : EBNFNode :=
  .mk n.token (n.children ++ [c])

/-- Call descriptor for the two mutually recursive pieces of ebnf.py lines
141-207: make_parser_node itself and its while-loop (mpn_loop). -/
inductive PCall where
  | make (name : String) (tokens : List EBNFToken) (endtoken : Option Sym)
      (gc : List (String × Nat))
  | loop (name : String) (this : EBNFNode) (tokens : List EBNFToken)
      (endtoken : Option Sym) (gc : List (String × Nat))

/-- Fuelled interpreter for make_parser_node and its loop.  Structural
recursion on the fuel so that concrete runs reduce definitionally.  Returns
the built node (None for an empty token list), the remaining tokens past the
terminating closer, and the updated groupcount. -/
def mpnRun : PCall → Nat →
    Except PyErr (Option EBNFNode × List EBNFToken × List (String × Nat))
  | _, 0 => .error .outOfFuel
  | .make name tokens endtoken gc, f + 1 =>
    match tokens with
    | [] => .ok (none, [], gc)
    | _ => mpnRun (.loop name (.mk ⟨.SEQUENCE, name⟩ []) tokens endtoken gc) f
  | .loop name this tokens endtoken gc, f + 1 =>
    match tokens with
    | [] => .ok (some this, [], gc)
    | first :: rest =>
      if isStartSym first.symbol then
        let key := baseName name
        let cnt := gcGet gc key + 1
        let gc1 := gcSet gc key cnt
        match mpnRun (.make (key ++ "-" ++ toString cnt) rest
            (some (groupings first.symbol)) gc1) f with
        | .error e => .error e
        | .ok (child?, tokens', gc2) =>
          match child? with
          | some child =>
            mpnRun (.loop name (this.addChild (child.setSym (seq_map first.symbol)))
              tokens' endtoken gc2) f
          | none => mpnRun (.loop name this tokens' endtoken gc2) f
      else if isEndSym first.symbol then
        match endtoken with
        | none => .error .attributeError
        | some et =>
          if et ≠ first.symbol then
            .error (.syntaxError ("Expected " ++ et.name ++
              " to close group, got " ++ first.symbol.name))
          else
            let used_brackets := first.symbol = .ENDREPEAT ∨ first.symbol = .ENDOPTIONAL
            match rest with
            | [] => .ok (some this, [], gc)
            | t1 :: rest2 =>
              if used_brackets ∧ isSuffixSym t1.symbol then
                .error (.syntaxError ("Illegal mix of brackets and suffixes in " ++ name))
              else if isSuffixSym t1.symbol then
                .ok (some (this.setSym (suffix_map t1.symbol)), rest2, gc)
              else
                .ok (some this, t1 :: rest2, gc)
      else if first.symbol = .OR then
        mpnRun (.loop name ((this.addChild (.mk first [])).setSym .ALTERNATING)
          rest endtoken gc) f
      else
        mpnRun (.loop name (this.addChild (.mk first [])) rest endtoken gc) f

/-- make_parser_node (ebnf.py lines 141-207). -/
def make_parser_node (name : String) (tokens : List EBNFToken)
    (endtoken : Option Sym) (gc : List (String × Nat)) (fuel : Nat) :
    Except PyErr (Option EBNFNode × List EBNFToken × List (String × Nat)) :=
  mpnRun (.make name tokens endtoken gc) fuel

/-- The while-loop inside make_parser_node. -/
def mpn_loop (name : String) (this : EBNFNode) (tokens : List EBNFToken)
    (endtoken : Option Sym) (gc : List (String × Nat)) (fuel : Nat) :
    Except PyErr (Option EBNFNode × List EBNFToken × List (String × Nat)) :=
  mpnRun (.loop name this tokens endtoken gc) fuel

/-- split_by_or (ebnf.py line 239): split a children list into maximal runs
delimited by OR tokens, dropping the OR runs themselves (itertools.groupby
keyed on symbol == OR). -/
def isOrNode (n : EBNFNode) : Bool := n.token.symbol = .OR

def split_by_or (l : List EBNFNode) : List (List EBNFNode) :=
  (l.splitBy (fun a b => isOrNode a = isOrNode b)).filter
    (fun g => match g with
      | x :: _ => ¬ isOrNode x
      | [] => false)


/-- Values stored in CST nodes: either a plain string (CSTNode(lexeme) in
match_terminal) or a token (consumed source tokens, and the constructed
wrapper tokens of the nonterminal matchers). -/
inductive CVal where
  | str (s : String)
  | tok (t : EBNFToken)
  deriving DecidableEq, Repr

/-- Concrete syntax tree node: a value and a list of children. -/
inductive CSTNode where
  | mk (val : CVal) (children : List CSTNode)

def CSTNode.val : CSTNode → CVal
  | .mk v _ => v

def CSTNode.children : CSTNode → List CSTNode
  | .mk _ c => c

/-- EBNFParser state that the matcher reads: the rule table (a rule may be
stored as None when its body was empty), the symbol table, the start rule and
the collapse_tree flag. -/
structure Parser where
  rules : List (String × Option EBNFNode)
  symbolTable : List (String × Sym)
  startRule : String
  collapseTree : Bool

/-- Result of match_rule, match, match_terminal, match_nonterminal,
match_optional, match_one_or_more, match_repeating, match_alternate:
the (ok, node_or_none, remaining_tokens) tuple. -/
abbrev MRes := Except PyErr (Bool × Option CSTNode × List EBNFToken)

/-- Result of match_sequence: (ok, found_list, remaining_tokens). -/
abbrev SRes := Except PyErr (Bool × List CSTNode × List EBNFToken)

/-- Rendering of a token list inside an error message ("%s" % tokens).  The
Token repr lives in the missing tokenizer module; modelled as a bracketed list
of lexemes.  The claims only ever test the fixed prefix of such messages. -/
def joinComma : List String → String
  | [] => ""
  | [x] => x
  | x :: y :: rest => x ++ ", " ++ joinComma (y :: rest)

def tokensStr (ts : List EBNFToken) : String :=
  "[" ++ joinComma (ts.map (fun t => t.lexeme)) ++ "]"

/-- Children of an optional child node (empty for None). -/
def kidsOf : Option CSTNode → List CSTNode
  | some c => c.children
  | none => []

/-- The common node.children test at the end of the nonterminal matchers:
ok and a node holding the accumulated children when there are any, else a
non-match. -/
def wrapKids (wrap : EBNFToken) (kids : List CSTNode) (t : List EBNFToken) : MRes :=
  match kids with
  | [] => .ok (false, none, t)
  | _ => .ok (true, some (.mk (.tok wrap) kids), t)

/-- Common tail of match_nonterminal: extend the fresh wrapper node with the
already-found children and the children of the returned child (if any), then
return ok iff the wrapper ended up with children. -/
def ntFinish (wrap : EBNFToken) (pre : List CSTNode) (r : MRes) : MRes :=
  match r with
  | .error e => .error e
  | .ok (_, child?, toks) => wrapKids wrap (pre ++ kidsOf child?) toks

/-- Tail of match_rule: the i == 0 leftover-input check applied to the result
of the recursive match call (ebnf.py lines 356-363). -/
def ruleFinish (i : Nat) (r : MRes) : MRes :=
  match r with
  | .error e => .error e
  | .ok (ok, node, toks) =>
    if i = 0 ∧ toks ≠ [] then
      .error (.valueError ("not all input consumed " ++ tokensStr (toks.take 3)))
    else .ok (ok, node, toks)

/-- Tail of the RULE branch of match_terminal (ebnf.py lines 401-410): attach
the sub-CST under a fresh leaf node, collapsing a lone grandchild when
collapse_tree is set, and report ok True regardless of the recursive flag. -/
def ruleLeafFinish (collapse : Bool) (lex : String) (r : MRes) : MRes :=
  match r with
  | .error e => .error e
  | .ok (_, child?, toks) =>
    match child? with
    | some child =>
      match child.children with
      | [c] =>
        if collapse then .ok (true, some (.mk (.str lex) [c]), toks)
        else .ok (true, some (.mk (.str lex) [child]), toks)
      | _ => .ok (true, some (.mk (.str lex) [child]), toks)
    | none => .ok (true, some (.mk (.str lex) []), toks)

/-- Call descriptor for the mutually recursive matcher methods of EBNFParser
(ebnf.py lines 334-641) and their while-loops. -/
inductive MCall where
  | rule (rule : String) (tokens : List EBNFToken) (i : Nat)
  | node (pn : EBNFNode) (tokens : List EBNFToken) (i : Nat)
  | term (pn : EBNFNode) (tokens : List EBNFToken) (i : Nat)
  | nonterm (pn : EBNFNode) (tokens : List EBNFToken) (i : Nat)
  | opt (pn : EBNFNode) (tokens : List EBNFToken) (i : Nat)
  | oom (pn : EBNFNode) (tokens : List EBNFToken) (i : Nat)
  | oomLoop (pn : EBNFNode) (children : List CSTNode) (tokens : List EBNFToken)
      (acc : List CSTNode) (i : Nat)
  | rep (pn : EBNFNode) (tokens : List EBNFToken) (i : Nat)
  | repLoop (pn : EBNFNode) (tokens : List EBNFToken) (acc : List CSTNode) (i : Nat)
  | alt (pn : EBNFNode) (tokens : List EBNFToken) (i : Nat)
  | altLoop (pn : EBNFNode) (alts : List (List EBNFNode))
      (original : List EBNFToken) (i : Nat)
  | seq (name : String) (originals : List EBNFNode) (tokens : List EBNFToken) (i : Nat)
  | seqLoop (name : String) (expected : List EBNFNode) (tokens : List EBNFToken)
      (orig : List EBNFToken) (acc : List CSTNode) (okSt : Option Bool) (i : Nat)

/-- Sum of the two result shapes: the (ok, node, tokens) tuples of the match
methods and the (ok, found, tokens) tuples of match_sequence. -/
inductive MOut where
  | m (r : Bool × Option CSTNode × List EBNFToken)
  | s (r : Bool × List CSTNode × List EBNFToken)

def mInj (r : MRes) : Except PyErr MOut :=
  match r with
  | .error e => .error e
  | .ok x => .ok (.m x)

def sInj (r : SRes) : Except PyErr MOut :=
  match r with
  | .error e => .error e
  | .ok x => .ok (.s x)

/-- Project a match-shaped result.  The source's call discipline never mixes
the two shapes, so the mismatched arm is unreachable; it is mapped to
unboundLocal so nothing silently succeeds if it were ever hit. -/
def toM (r : Except PyErr MOut) : MRes :=
  match r with
  | .error e => .error e
  | .ok (.m x) => .ok x
  | .ok (.s _) => .error .unboundLocal

/-- Project a sequence-shaped result (see toM). -/
def toS (r : Except PyErr MOut) : SRes :=
  match r with
  | .error e => .error e
  | .ok (.s x) => .ok x
  | .ok (.m _) => .error .unboundLocal


/- The matcher of EBNFParser (ebnf.py lines 334-641), one fuelled interpreter
with one arm per Python method and one per while-loop (repLoop, oomLoop,
altLoop, seqLoop).  The source's match method is called node/match_node here
since match is reserved in Lean.  Every arm burns one unit of fuel; the
reporting and statistics side effects of the source carry no information into
the results and are dropped, except where report formatting itself can raise
(the tokens[0] access in match, modelled as indexError). -/
def runMatch (p : Parser) : MCall → Nat → Except PyErr MOut
  | _, 0 => .error .outOfFuel
  | .rule rule tokens i, f + 1 =>
    mInj (
      match (p.rules.lookup rule).join with
      | none => .error (.syntaxError ("No rule for " ++ rule))
      | some pn => ruleFinish i (toM (runMatch p (.node pn tokens (i + 1)) f)))
  | .node pn tokens i, f + 1 =>
    mInj (
      match tokens with
      | [] =>
        if pn.optional ∨ pn.repeating then .error .indexError
        else .error (.syntaxError ("Unexpected end of tokens for " ++ pn.pystr))
      | _ =>
        if pn.token.symbol.is_terminal then toM (runMatch p (.term pn tokens i) f)
        else toM (runMatch p (.nonterm pn tokens i) f))
  | .term pn tokens i, f + 1 =>
    mInj (
      match tokens with
      | [] => .ok (false, none, [])
      | t0 :: rest =>
        if pn.token.symbol = .RULE then
          ruleLeafFinish p.collapseTree pn.token.lexeme
            (toM (runMatch p (.rule pn.token.lexeme (t0 :: rest) (i + 1)) f))
        else if pn.token.symbol = .LITERAL then
          if pn.token.lexeme = t0.lexeme then
            .ok (true, some (.mk (.str pn.token.lexeme) [.mk (.tok t0) []]), rest)
          else .ok (false, none, t0 :: rest)
        else if pn.token.lexeme = t0.symbol.name then
          .ok (true, some (.mk (.str pn.token.lexeme) [.mk (.tok t0) []]), rest)
        else .ok (false, none, t0 :: rest))
  | .nonterm pn tokens i, f + 1 =>
    mInj (
      match p.symbolTable.lookup (baseName pn.token.lexeme) with
      | none => .error .keyError
      | some sym =>
        let wrap : EBNFToken := ⟨sym, pn.token.lexeme⟩
        match tokens with
        | [] => .ok (false, none, [])
        | _ =>
          if pn.alternate then
            ntFinish wrap [] (toM (runMatch p (.alt pn tokens (i + 1)) f))
          else if pn.repeating then
            ntFinish wrap [] (toM (runMatch p (.rep pn tokens (i + 1)) f))
          else if pn.optional then
            ntFinish wrap [] (toM (runMatch p (.opt pn tokens (i + 1)) f))
          else if pn.oneormore then
            match toM (runMatch p (.oom pn tokens (i + 1)) f) with
            | .error e => .error e
            | .ok (ok, child?, toks) =>
              if ok = false then
                .error (.syntaxError "Did not find required seqence at least once")
              else ntFinish wrap [] (.ok (ok, child?, toks))
          else if pn.token.symbol = .SEQUENCE then
            match toS (runMatch p (.seq pn.token.lexeme pn.children tokens (i + 1)) f) with
            | .error e => .error e
            | .ok (_, found, toks) => ntFinish wrap found (.ok (true, none, toks))
          else .error (.syntaxError "ran out of options in match_nonterminal"))
  | .opt pn tokens i, f + 1 =>
    mInj (
      match toS (runMatch p (.seq pn.token.lexeme pn.children tokens (i + 1)) f) with
      | .error e => .error e
      | .ok (true, children, toks) =>
        .ok (true, some (.mk (.tok pn.token) children), toks)
      | .ok (false, _, toks) => .ok (false, none, toks))
  | .oom pn tokens i, f + 1 =>
    (match toS (runMatch p (.seq pn.token.lexeme pn.children tokens (i + 1)) f) with
      | .error e => .error e
      | .ok (false, _, toks) =>
        .error (.syntaxError ("Missing group: " ++ tokensStr toks))
      | .ok (true, children, toks) =>
        runMatch p (.oomLoop pn children toks [] i) f)
  | .oomLoop pn children tokens acc i, f + 1 =>
    (let acc' := acc ++ children
     match toS (runMatch p (.seq pn.token.lexeme pn.children tokens (i + 1)) f) with
      | .error e => .error e
      | .ok (true, ch', toks') => runMatch p (.oomLoop pn ch' toks' acc' i) f
      | .ok (false, _, toks') => mInj (wrapKids pn.token acc' toks'))
  | .rep pn tokens i, f + 1 => runMatch p (.repLoop pn tokens [] i) f
  | .repLoop pn tokens acc i, f + 1 =>
    (match toS (runMatch p (.seq pn.token.lexeme pn.children tokens (i + 1)) f) with
      | .error e => .error e
      | .ok (true, addends, toks) => runMatch p (.repLoop pn toks (acc ++ addends) i) f
      | .ok (false, _, toks) => mInj (wrapKids pn.token acc toks))
  | .alt pn tokens i, f + 1 =>
    (match tokens with
      | [] => mInj (.ok (false, none, []))
      | _ => runMatch p (.altLoop pn (split_by_or pn.children) tokens i) f)
  | .altLoop pn alts original i, f + 1 =>
    (match alts with
      | [] => mInj (.ok (false, none, original))
      | alt :: rest =>
        match toS (runMatch p (.seq pn.token.lexeme alt original (i + 1)) f) with
        | .error (.valueError _) => runMatch p (.altLoop pn rest original i) f
        | .error e => .error e
        | .ok (true, found, remaining) =>
          mInj (.ok (true, some (.mk (.tok pn.token) found), remaining))
        | .ok (false, _, _) => runMatch p (.altLoop pn rest original i) f)
  | .seq name originals tokens i, f + 1 =>
    runMatch p (.seqLoop name originals tokens tokens [] none i) f
  | .seqLoop name expected tokens orig acc okSt i, f + 1 =>
    (match expected with
      | [] =>
        sInj (
          match okSt with
          | none => .error .unboundLocal
          | some ok => .ok (ok, acc, tokens))
      | this :: restExp =>
        match tokens with
        | [] =>
          sInj (
            if this.oneormore then
              .error (.syntaxError ("Expected " ++ this.pystr ++ " and found nothing"))
            else .ok (false, [], orig))
        | _ =>
          match toM (runMatch p (.node this tokens (i + 1)) f) with
          | .error e => .error e
          | .ok (ok, some node, toks) =>
            runMatch p (.seqLoop name restExp toks orig (acc ++ node.children) (some ok) i) f
          | .ok (_, none, toks) => sInj (.ok (false, acc, toks)))

/-- match_rule (ebnf.py line 340). -/
def match_rule (p : Parser) (rule : String) (tokens : List EBNFToken)
    (i : Nat) (fuel : Nat) : MRes :=
  toM (runMatch p (.rule rule tokens i) fuel)

/-- The source's match method (ebnf.py line 366); match is reserved in Lean. -/
def match_node (p : Parser) (pn : EBNFNode) (tokens : List EBNFToken)
    (i : Nat) (fuel : Nat) : MRes :=
  toM (runMatch p (.node pn tokens i) fuel)

/-- match_terminal (ebnf.py line 390). -/
def match_terminal (p : Parser) (pn : EBNFNode) (tokens : List EBNFToken)
    (i : Nat) (fuel : Nat) : MRes :=
  toM (runMatch p (.term pn tokens i) fuel)

/-- match_nonterminal (ebnf.py line 431). -/
def match_nonterminal (p : Parser) (pn : EBNFNode) (tokens : List EBNFToken)
    (i : Nat) (fuel : Nat) : MRes :=
  toM (runMatch p (.nonterm pn tokens i) fuel)

/-- match_optional (ebnf.py line 500). -/
def match_optional (p : Parser) (pn : EBNFNode) (tokens : List EBNFToken)
    (i : Nat) (fuel : Nat) : MRes :=
  toM (runMatch p (.opt pn tokens i) fuel)

/-- match_one_or_more (ebnf.py line 514). -/
def match_one_or_more (p : Parser) (pn : EBNFNode) (tokens : List EBNFToken)
    (i : Nat) (fuel : Nat) : MRes :=
  toM (runMatch p (.oom pn tokens i) fuel)

/-- The while-loop of match_one_or_more. -/
def oom_loop (p : Parser) (pn : EBNFNode) (children : List CSTNode)
    (tokens : List EBNFToken) (acc : List CSTNode) (i : Nat) (fuel : Nat) : MRes :=
  toM (runMatch p (.oomLoop pn children tokens acc i) fuel)

/-- match_repeating (ebnf.py line 533). -/
def match_repeating (p : Parser) (pn : EBNFNode) (tokens : List EBNFToken)
    (i : Nat) (fuel : Nat) : MRes :=
  toM (runMatch p (.rep pn tokens i) fuel)

/-- The while-loop of match_repeating. -/
def rep_loop (p : Parser) (pn : EBNFNode) (tokens : List EBNFToken)
    (acc : List CSTNode) (i : Nat) (fuel : Nat) : MRes :=
  toM (runMatch p (.repLoop pn tokens acc i) fuel)

/-- match_alternate (ebnf.py line 561). -/
def match_alternate (p : Parser) (pn : EBNFNode) (tokens : List EBNFToken)
    (i : Nat) (fuel : Nat) : MRes :=
  toM (runMatch p (.alt pn tokens i) fuel)

/-- The for-loop over alternates inside match_alternate. -/
def alt_loop (p : Parser) (pn : EBNFNode) (alts : List (List EBNFNode))
    (original : List EBNFToken) (i : Nat) (fuel : Nat) : MRes :=
  toM (runMatch p (.altLoop pn alts original i) fuel)

/-- match_sequence (ebnf.py line 600). -/
def match_sequence (p : Parser) (name : String) (originals : List EBNFNode)
    (tokens : List EBNFToken) (i : Nat) (fuel : Nat) : SRes :=
  toS (runMatch p (.seq name originals tokens i) fuel)

/-- The while-loop of match_sequence: expected children yet to match, the
current and original token lists, the accumulated found list and the current
value of the loop-local ok variable (None before the first iteration,
mirroring the UnboundLocalError of the source on an empty expected list). -/
def seq_loop (p : Parser) (name : String) (expected : List EBNFNode)
    (tokens : List EBNFToken) (orig : List EBNFToken) (acc : List CSTNode)
    (okSt : Option Bool) (i : Nat) (fuel : Nat) : SRes :=
  toS (runMatch p (.seqLoop name expected tokens orig acc okSt i) fuel)

/-- EBNFParser.parse: match the start rule against the token list. -/
def parse (p : Parser) (tokens : List EBNFToken) (fuel : Nat) : MRes :=
  if p.startRule = "" then .error (.valueError "no start rule established")
  else match_rule p p.startRule tokens 0 fuel

/-- ASCII character classes used by the meta-lexer patterns of ebnf.py. -/
def isLowerCh (c : Char) : Bool := 'a' ≤ c ∧ c ≤ 'z'

def isUpperCh (c : Char) : Bool := 'A' ≤ c ∧ c ≤ 'Z'

def isSpaceCh (c : Char) : Bool := c = ' ' ∨ c = '\t' ∨ c = '\n' ∨ c = '\r'

/-- Modelled from the spec: the Tokenizer class lives in the missing module
src/brutus/tokenizer.py.  Following section 4.2 and 4.3 of the spec, the
meta-lexer tries the patterns registered in ebnf.py lines 28-44 in insertion
order at each position (whitespace skipped, lower-case run to RULE, upper-case
run to TERM, a quoted non-empty string to LITERAL with the quotes stripped,
the eight single-character group symbols, the OR bar, := and ;), and fails
with LexicalError when no pattern matches.  ebnf.py registers no pattern for
the suffix characters *, ? and +, so those characters are unmatched. -/
def metaLex : List Char → Nat → Except PyErr (List EBNFToken)
  | _, 0 => .error .outOfFuel
  | [], _ => .ok []
  | c :: cs, f + 1 =>
    if isSpaceCh c then metaLex cs f
    else if isLowerCh c then
      match metaLex ((c :: cs).dropWhile isLowerCh) f with
      | .error e => .error e
      | .ok ts => .ok (⟨.RULE, String.mk ((c :: cs).takeWhile isLowerCh)⟩ :: ts)
    else if isUpperCh c then
      match metaLex ((c :: cs).dropWhile isUpperCh) f with
      | .error e => .error e
      | .ok ts => .ok (⟨.TERM, String.mk ((c :: cs).takeWhile isUpperCh)⟩ :: ts)
    else if c = '"' then
      match cs.takeWhile (fun d => d ≠ '"'), cs.dropWhile (fun d => d ≠ '"') with
      | content :: more, _ :: rest2 =>
        match metaLex rest2 f with
        | .error e => .error e
        | .ok ts => .ok (⟨.LITERAL, String.mk (content :: more)⟩ :: ts)
      | _, _ => .error (.lexicalError ("no pattern matches at " ++ String.mk (c :: cs)))
    else if c = '\x7b' then
      match metaLex cs f with
      | .error e => .error e
      | .ok ts => .ok (⟨.STARTREPEAT, "\x7b"⟩ :: ts)
    else if c = '\x7d' then
      match metaLex cs f with
      | .error e => .error e
      | .ok ts => .ok (⟨.ENDREPEAT, "\x7d"⟩ :: ts)
    else if c = '(' then
      match metaLex cs f with
      | .error e => .error e
      | .ok ts => .ok (⟨.STARTGROUP, "("⟩ :: ts)
    else if c = ')' then
      match metaLex cs f with
      | .error e => .error e
      | .ok ts => .ok (⟨.ENDGROUP, ")"⟩ :: ts)
    else if c = '[' then
      match metaLex cs f with
      | .error e => .error e
      | .ok ts => .ok (⟨.STARTOPTIONAL, "["⟩ :: ts)
    else if c = ']' then
      match metaLex cs f with
      | .error e => .error e
      | .ok ts => .ok (⟨.ENDOPTIONAL, "]"⟩ :: ts)
    else if c = '<' then
      match metaLex cs f with
      | .error e => .error e
      | .ok ts => .ok (⟨.STARTATL, "<"⟩ :: ts)
    else if c = '>' then
      match metaLex cs f with
      | .error e => .error e
      | .ok ts => .ok (⟨.ENDATL, ">"⟩ :: ts)
    else if c = '|' then
      match metaLex cs f with
      | .error e => .error e
      | .ok ts => .ok (⟨.OR, "|"⟩ :: ts)
    else if c = ':' then
      match cs with
      | '=' :: rest2 =>
        match metaLex rest2 f with
        | .error e => .error e
        | .ok ts => .ok (⟨.DEFINE, ":="⟩ :: ts)
      | _ => .error (.lexicalError ("no pattern matches at " ++ String.mk (c :: cs)))
    else if c = ';' then
      match metaLex cs f with
      | .error e => .error e
      | .ok ts => .ok (⟨.ENDDEFINE, ";"⟩ :: ts)
    else .error (.lexicalError ("no pattern matches at " ++ String.mk (c :: cs)))

/-- list(EBNFTokenizer(text)): run the meta-lexer over a rule body. -/
def ebnf_tokenize (s : String) : Except PyErr (List EBNFToken) :=
  metaLex s.toList (s.length + 1)

/-- Split a character list on a separator character (str.split(';')). -/
def splitCh (sep : Char) : List Char → List (List Char)
  | [] => [[]]
  | c :: cs =>
    match splitCh sep cs with
    | h :: t => if c = sep then [] :: h :: t else (c :: h) :: t
    | [] => if c = sep then [[], []] else [[c]]

/-- Split a character list on the two-character separator := (str.split). -/
def splitDefineCh : List Char → List (List Char)
  | [] => [[]]
  | ':' :: '=' :: rest => [] :: splitDefineCh rest
  | c :: rest =>
    match splitDefineCh rest with
    | h :: t => (c :: h) :: t
    | [] => [[c]]

/-- str.strip of Python: drop leading and trailing whitespace. -/
def pyStrip (s : String) : String :=
  String.mk (((s.toList.dropWhile isSpaceCh).reverse.dropWhile isSpaceCh).reverse)

/-- str.islower of Python: at least one cased character and no upper-case
cased character (restricted to ASCII letters, the only characters rule names
use). -/
def strIslower (s : String) : Bool :=
  s.toList.any (fun c => isLowerCh c ∨ isUpperCh c) ∧ s.toList.all (fun c => ¬ isUpperCh c)

/-- str.isupper of Python, see strIslower. -/
def strIsupper (s : String) : Bool :=
  s.toList.any (fun c => isLowerCh c ∨ isUpperCh c) ∧ s.toList.all (fun c => ¬ isLowerCh c)

/-- State threaded through the rule-definition loop of EBNFParser.init:
the symbol table, the rule table, the names registered on the target
tokenizer (seeded with LITERAL by the two add_lexer calls in the
constructor), and the groupcount counter. -/
structure InitSt where
  symbolTable : List (String × Sym)
  rules : List (String × Option EBNFNode)
  tokSyms : List String
  gc : List (String × Nat)

/-- The for key, val in data loop of EBNFParser.init (ebnf.py lines 283-302).
A lower-case key compiles its body through the meta-lexer and
make_parser_node; an upper-case key registers a target-tokenizer terminal; a
key that is neither is silently skipped (no branch of the source runs).
A line without := (or with several) fails unpacking, a ValueError. -/
def initLines : List String → InitSt → Except PyErr InitSt
  | [], st => .ok st
  | line :: rest, st =>
    match splitDefineCh line.toList with
    | [key0, val0] =>
      let key := pyStrip (String.mk key0)
      let val := String.mk val0
      if (st.symbolTable.lookup key).isSome then
        .error (.syntaxError ("rule for " ++ key ++ " already exists"))
      else if strIslower key then
        match ebnf_tokenize val with
        | .error e => .error e
        | .ok toks =>
          match make_parser_node key toks none st.gc (2 * toks.length + 4) with
          | .error e => .error e
          | .ok (pn?, remaining, gc') =>
            match remaining with
            | _ :: _ => .error (.syntaxError ("rule " ++ key ++ " did not process correctly"))
            | [] =>
              initLines rest
                { st with
                  rules := st.rules ++ [(key, pn?)]
                  symbolTable := st.symbolTable ++ [(key, .ebnfNT key)]
                  gc := gc' }
      else if strIsupper key then
        if key ∈ st.tokSyms then
          .error (.valueError ("Redefining terminal symbol " ++ key ++ " in EBNF"))
        else
          initLines rest
            { st with
              tokSyms := st.tokSyms ++ [key]
              symbolTable := st.symbolTable ++ [(key, .ebnfT key)] }
      else initLines rest st
    | _ => .error (.valueError "values to unpack")

/-- EBNFParser.init (ebnf.py lines 270-310): split the grammar text on ;,
drop blank lines, process each NAME := BODY line, and take the first
lower-case rule as the start rule (next(iter(...)) raises StopIteration when
there is none).  collapse_tree defaults to True. -/
def EBNFParser_init (text : String) : Except PyErr Parser :=
  let lines := ((splitCh ';' text.toList).map String.mk).filter (fun l => pyStrip l ≠ "")
  match initLines lines ⟨[], [], ["LITERAL"], []⟩ with
  | .error e => .error e
  | .ok st =>
    match st.rules with
    | [] => .error .stopIteration
    | (k, _) :: _ => .ok ⟨st.rules, st.symbolTable, k, true⟩

/- The leaf tokens of a CST, in order: the tokens held at childless nodes
that carry a token value (the nodes built as CSTNode(tokens[0]) when a
literal or terminal is consumed).  Childless nodes holding a plain string
contribute nothing. -/
mutual

def leafToks : CSTNode → List EBNFToken
  | .mk v [] => (match v with | .tok t => [t] | .str _ => [])
  | .mk _ (c :: cs) => leafToksL (c :: cs)

def leafToksL : List CSTNode → List EBNFToken
  | [] => []
  | c :: cs => leafToks c ++ leafToksL cs

end

/-- Relation between the CST lists produced by a collapsing run and a
non-collapsing run: equal length (the matcher branches on emptiness of these
lists) and equal leaf-token sequences. -/
def RelL (l₁ l₂ : List CSTNode) : Prop :=
  l₁.length = l₂.length ∧ leafToksL l₁ = leafToksL l₂

/-- Relation between corresponding result nodes of the two runs: same value,
related children lists. -/
def RelN (a b : CSTNode) : Prop :=
  a.val = b.val ∧ RelL a.children b.children

def RelO : Option CSTNode → Option CSTNode → Prop
  | none, none => True
  | some a, some b => RelN a b
  | _, _ => False

/-- Relation between match-shaped results of the two runs. -/
def RelR (r₁ r₂ : MRes) : Prop :=
  match r₁, r₂ with
  | .error e₁, .error e₂ => e₁ = e₂
  | .ok (o₁, n₁, t₁), .ok (o₂, n₂, t₂) => o₁ = o₂ ∧ RelO n₁ n₂ ∧ t₁ = t₂
  | _, _ => False

/-- Relation between sequence-shaped results of the two runs. -/
def RelS (r₁ r₂ : SRes) : Prop :=
  match r₁, r₂ with
  | .error e₁, .error e₂ => e₁ = e₂
  | .ok (o₁, l₁, t₁), .ok (o₂, l₂, t₂) => o₁ = o₂ ∧ RelL l₁ l₂ ∧ t₁ = t₂
  | _, _ => False

/-- Relation between raw interpreter outputs of the two runs. -/
def RelOut : Except PyErr MOut → Except PyErr MOut → Prop
  | .error e₁, .error e₂ => e₁ = e₂
  | .ok (.m x₁), .ok (.m x₂) => RelR (.ok x₁) (.ok x₂)
  | .ok (.s x₁), .ok (.s x₂) => RelS (.ok x₁) (.ok x₂)
  | _, _ => False

/-- Relation between the call descriptors of a collapsing run and a
non-collapsing run: identical except that accumulated CST lists need only be
related by RelL. -/
inductive RelCall : MCall → MCall → Prop where
  | rule (r : String) (toks : List EBNFToken) (i : Nat) :
      RelCall (.rule r toks i) (.rule r toks i)
  | node (pn : EBNFNode) (toks : List EBNFToken) (i : Nat) :
      RelCall (.node pn toks i) (.node pn toks i)
  | term (pn : EBNFNode) (toks : List EBNFToken) (i : Nat) :
      RelCall (.term pn toks i) (.term pn toks i)
  | nonterm (pn : EBNFNode) (toks : List EBNFToken) (i : Nat) :
      RelCall (.nonterm pn toks i) (.nonterm pn toks i)
  | opt (pn : EBNFNode) (toks : List EBNFToken) (i : Nat) :
      RelCall (.opt pn toks i) (.opt pn toks i)
  | oom (pn : EBNFNode) (toks : List EBNFToken) (i : Nat) :
      RelCall (.oom pn toks i) (.oom pn toks i)
  | oomLoop (pn : EBNFNode) (ch₁ ch₂ : List CSTNode) (toks : List EBNFToken)
      (acc₁ acc₂ : List CSTNode) (i : Nat) :
      RelL ch₁ ch₂ → RelL acc₁ acc₂ →
      RelCall (.oomLoop pn ch₁ toks acc₁ i) (.oomLoop pn ch₂ toks acc₂ i)
  | rep (pn : EBNFNode) (toks : List EBNFToken) (i : Nat) :
      RelCall (.rep pn toks i) (.rep pn toks i)
  | repLoop (pn : EBNFNode) (toks : List EBNFToken) (acc₁ acc₂ : List CSTNode) (i : Nat) :
      RelL acc₁ acc₂ →
      RelCall (.repLoop pn toks acc₁ i) (.repLoop pn toks acc₂ i)
  | alt (pn : EBNFNode) (toks : List EBNFToken) (i : Nat) :
      RelCall (.alt pn toks i) (.alt pn toks i)
  | altLoop (pn : EBNFNode) (alts : List (List EBNFNode)) (original : List EBNFToken)
      (i : Nat) :
      RelCall (.altLoop pn alts original i) (.altLoop pn alts original i)
  | seq (name : String) (originals : List EBNFNode) (toks : List EBNFToken) (i : Nat) :
      RelCall (.seq name originals toks i) (.seq name originals toks i)
  | seqLoop (name : String) (exp : List EBNFNode) (toks orig : List EBNFToken)
      (acc₁ acc₂ : List CSTNode) (okSt : Option Bool) (i : Nat) :
      RelL acc₁ acc₂ →
      RelCall (.seqLoop name exp toks orig acc₁ okSt i) (.seqLoop name exp toks orig acc₂ okSt i)

/-- A parser with its collapse_tree flag set to the given value. -/
def withCollapse (p : Parser) (b : Bool) : Parser :=
  ⟨p.rules, p.symbolTable, p.startRule, b⟩

/-- Recognizer for the RequiredGroupMissing error kind of the spec: the
SyntaxError raised by match_one_or_more starts with Missing group. -/
def isMissingGroup : PyErr → Bool
  | .syntaxError s => List.isPrefixOf "Missing group".toList s.toList
  | _ => false

/- Concrete fixtures used by the claim theorems, their counterexamples and
witnesses.  Tokens as the target tokenizer would emit them (QTerminal
symbols), literal leaf parser nodes, small hand-assembled parsers, and the
grammar texts of the spec scenarios. -/

def tA : EBNFToken := ⟨.qTerm "T", "a"⟩

def tB : EBNFToken := ⟨.qTerm "T", "b"⟩

def tC : EBNFToken := ⟨.qTerm "T", "c"⟩

def litA : EBNFNode := .mk ⟨.LITERAL, "a"⟩ []

def litB : EBNFNode := .mk ⟨.LITERAL, "b"⟩ []

def orNode : EBNFNode := .mk ⟨.OR, "|"⟩ []

def p0 : Parser := ⟨[], [], "", true⟩

def p4x : Parser := ⟨[("x", some (.mk ⟨.SEQUENCE, "x"⟩ [litA]))], [("x", .ebnfNT "x")], "x", true⟩

def ruleLeafX : EBNFNode := .mk ⟨.RULE, "x"⟩ []

def altPN : EBNFNode := .mk ⟨.ALTERNATING, "a-1"⟩ [litA, orNode, litB]

def g2 : String := "s := \"a\" \x7b\"b\"\x7d \"c\";"

def g5 : String := "s := \x7bx\x7d; x := \"a\";"

def g8 : String := "r := \x7b\"a\"\x7d*;"

def g9 : String := "r := < \"a\" >;"

def g7 : String := "s := x; x := A;"

def tok7 : EBNFToken := ⟨.qTerm "A", "a"⟩

/-- The parser that compiling g7 produces. -/
def p7val : Parser :=
  ⟨[("s", some (.mk ⟨.SEQUENCE, "s"⟩ [.mk ⟨.RULE, "x"⟩ []])),
    ("x", some (.mk ⟨.SEQUENCE, "x"⟩ [.mk ⟨.TERM, "A"⟩ []]))],
   [("s", .ebnfNT "s"), ("x", .ebnfNT "x")], "s", true⟩

/-- The CST that parsing tok7 against g7 produces with collapsing enabled:
the unary rule-x wrapper between s and the consumed token is gone. -/
def c7node : CSTNode :=
  .mk (.tok ⟨.ebnfNT "s", "s"⟩) [.mk (.tok ⟨.qTerm "A", "a"⟩) []]

def litC : EBNFNode := .mk ⟨.LITERAL, "c"⟩ []

/-- The REPEATING group node that compiling g2 produces for its brace group. -/
def repB : EBNFNode := .mk ⟨.REPEATING, "s-1"⟩ [litB]

/-- The parser EBNFParser_init builds from g2. -/
def p2val : Parser :=
  ⟨[("s", some (.mk ⟨.SEQUENCE, "s"⟩ [litA, repB, litC]))], [("s", .ebnfNT "s")], "s", true⟩

/-- The parser EBNFParser_init builds from g9. -/
def p9val : Parser :=
  ⟨[("r", some (.mk ⟨.SEQUENCE, "r"⟩ [.mk ⟨.ATLEASTONCE, "r-1"⟩ [litA]]))],
   [("r", .ebnfNT "r")], "r", true⟩

/-- The brace-group node of g5. -/
def repX : EBNFNode := .mk ⟨.REPEATING, "s-1"⟩ [ruleLeafX]

/-- The root parser node of rule s of g5. -/
def rootS : EBNFNode := .mk ⟨.SEQUENCE, "s"⟩ [repX]

/-- The root parser node of rule x of g5. -/
def xRoot : EBNFNode := .mk ⟨.SEQUENCE, "x"⟩ [litA]

/-- The parser EBNFParser_init builds from g5. -/
def p5val : Parser :=
  ⟨[("s", some rootS), ("x", some xRoot)], [("s", .ebnfNT "s"), ("x", .ebnfNT "x")], "s", true⟩

/- Theorems.  First the projection identities and one-step unfolding
equations of the interpreter in the vocabulary of the per-method wrappers;
then the claim theorems. -/

theorem toM_mInj (r : MRes) : toM (mInj r) = r := by cases r <;> rfl

theorem toS_sInj (r : SRes) : toS (sInj r) = r := by cases r <;> rfl

theorem match_terminal_succ (p : Parser) (pn : EBNFNode) (tokens : List EBNFToken)
    (i f : Nat) :
    match_terminal p pn tokens i (f + 1) =
      (match tokens with
       | [] => .ok (false, none, [])
       | t0 :: rest =>
         if pn.token.symbol = .RULE then
           ruleLeafFinish p.collapseTree pn.token.lexeme
             (match_rule p pn.token.lexeme (t0 :: rest) (i + 1) f)
         else if pn.token.symbol = .LITERAL then
           if pn.token.lexeme = t0.lexeme then
             .ok (true, some (.mk (.str pn.token.lexeme) [.mk (.tok t0) []]), rest)
           else .ok (false, none, t0 :: rest)
         else if pn.token.lexeme = t0.symbol.name then
           .ok (true, some (.mk (.str pn.token.lexeme) [.mk (.tok t0) []]), rest)
         else .ok (false, none, t0 :: rest)) := by
  unfold match_terminal runMatch match_rule
  exact toM_mInj _

theorem match_rule_succ (p : Parser) (rule : String) (tokens : List EBNFToken)
    (i f : Nat) :
    match_rule p rule tokens i (f + 1) =
      (match (p.rules.lookup rule).join with
       | none => .error (.syntaxError ("No rule for " ++ rule))
       | some pn => ruleFinish i (match_node p pn tokens (i + 1) f)) := by
  unfold match_rule runMatch match_node
  exact toM_mInj _

theorem match_node_succ (p : Parser) (pn : EBNFNode) (tokens : List EBNFToken)
    (i f : Nat) :
    match_node p pn tokens i (f + 1) =
      (match tokens with
       | [] =>
         if pn.optional ∨ pn.repeating then .error .indexError
         else .error (.syntaxError ("Unexpected end of tokens for " ++ pn.pystr))
       | _ =>
         if pn.token.symbol.is_terminal then match_terminal p pn tokens i f
         else match_nonterminal p pn tokens i f) := by
  unfold match_node runMatch match_terminal match_nonterminal
  exact toM_mInj _

theorem match_nonterminal_succ (p : Parser) (pn : EBNFNode) (tokens : List EBNFToken)
    (i f : Nat) :
    match_nonterminal p pn tokens i (f + 1) =
      (match p.symbolTable.lookup (baseName pn.token.lexeme) with
       | none => .error .keyError
       | some sym =>
         let wrap : EBNFToken := ⟨sym, pn.token.lexeme⟩
         match tokens with
         | [] => .ok (false, none, [])
         | _ =>
           if pn.alternate then
             ntFinish wrap [] (match_alternate p pn tokens (i + 1) f)
           else if pn.repeating then
             ntFinish wrap [] (match_repeating p pn tokens (i + 1) f)
           else if pn.optional then
             ntFinish wrap [] (match_optional p pn tokens (i + 1) f)
           else if pn.oneormore then
             match match_one_or_more p pn tokens (i + 1) f with
             | .error e => .error e
             | .ok (ok, child?, toks) =>
               if ok = false then
                 .error (.syntaxError "Did not find required seqence at least once")
               else ntFinish wrap [] (.ok (ok, child?, toks))
           else if pn.token.symbol = .SEQUENCE then
             match match_sequence p pn.token.lexeme pn.children tokens (i + 1) f with
             | .error e => .error e
             | .ok (_, found, toks) => ntFinish wrap found (.ok (true, none, toks))
           else .error (.syntaxError "ran out of options in match_nonterminal")) := by
  unfold match_nonterminal runMatch match_alternate match_repeating match_optional
    match_one_or_more match_sequence
  exact toM_mInj _

theorem match_optional_succ (p : Parser) (pn : EBNFNode) (tokens : List EBNFToken)
    (i f : Nat) :
    match_optional p pn tokens i (f + 1) =
      (match match_sequence p pn.token.lexeme pn.children tokens (i + 1) f with
       | .error e => .error e
       | .ok (true, children, toks) => .ok (true, some (.mk (.tok pn.token) children), toks)
       | .ok (false, _, toks) => .ok (false, none, toks)) := by
  unfold match_optional runMatch match_sequence
  exact toM_mInj _

theorem match_one_or_more_succ (p : Parser) (pn : EBNFNode) (tokens : List EBNFToken)
    (i f : Nat) :
    match_one_or_more p pn tokens i (f + 1) =
      (match match_sequence p pn.token.lexeme pn.children tokens (i + 1) f with
       | .error e => .error e
       | .ok (false, _, toks) => .error (.syntaxError ("Missing group: " ++ tokensStr toks))
       | .ok (true, children, toks) => oom_loop p pn children toks [] i f) := by
  unfold match_one_or_more runMatch match_sequence oom_loop
  rcases h : toS (runMatch p (.seq pn.token.lexeme pn.children tokens (i + 1)) f) with e | ⟨ok, ch, toks⟩
  · rfl
  · cases ok <;> rfl

theorem oom_loop_succ (p : Parser) (pn : EBNFNode) (children : List CSTNode)
    (tokens : List EBNFToken) (acc : List CSTNode) (i f : Nat) :
    oom_loop p pn children tokens acc i (f + 1) =
      (match match_sequence p pn.token.lexeme pn.children tokens (i + 1) f with
       | .error e => .error e
       | .ok (true, ch', toks') => oom_loop p pn ch' toks' (acc ++ children) i f
       | .ok (false, _, toks') => wrapKids pn.token (acc ++ children) toks') := by
  have key : ∀ r : SRes,
      toM (match r with
           | .error e => .error e
           | .ok (true, ch', toks') => runMatch p (.oomLoop pn ch' toks' (acc ++ children) i) f
           | .ok (false, _, toks') => mInj (wrapKids pn.token (acc ++ children) toks')) =
        (match r with
         | .error e => .error e
         | .ok (true, ch', toks') => oom_loop p pn ch' toks' (acc ++ children) i f
         | .ok (false, _, toks') => wrapKids pn.token (acc ++ children) toks') := by
    rintro (e | ⟨ok, ch', toks'⟩)
    · rfl
    · cases ok
      · exact toM_mInj _
      · rfl
  exact key (match_sequence p pn.token.lexeme pn.children tokens (i + 1) f)

theorem match_repeating_succ (p : Parser) (pn : EBNFNode) (tokens : List EBNFToken)
    (i f : Nat) :
    match_repeating p pn tokens i (f + 1) = rep_loop p pn tokens [] i f := rfl

theorem rep_loop_succ (p : Parser) (pn : EBNFNode) (tokens : List EBNFToken)
    (acc : List CSTNode) (i f : Nat) :
    rep_loop p pn tokens acc i (f + 1) =
      (match match_sequence p pn.token.lexeme pn.children tokens (i + 1) f with
       | .error e => .error e
       | .ok (true, addends, toks) => rep_loop p pn toks (acc ++ addends) i f
       | .ok (false, _, toks) => wrapKids pn.token acc toks) := by
  have key : ∀ r : SRes,
      toM (match r with
           | .error e => .error e
           | .ok (true, addends, toks) => runMatch p (.repLoop pn toks (acc ++ addends) i) f
           | .ok (false, _, toks) => mInj (wrapKids pn.token acc toks)) =
        (match r with
         | .error e => .error e
         | .ok (true, addends, toks) => rep_loop p pn toks (acc ++ addends) i f
         | .ok (false, _, toks) => wrapKids pn.token acc toks) := by
    rintro (e | ⟨ok, addends, toks⟩)
    · rfl
    · cases ok
      · exact toM_mInj _
      · rfl
  exact key (match_sequence p pn.token.lexeme pn.children tokens (i + 1) f)

theorem match_alternate_succ (p : Parser) (pn : EBNFNode) (tokens : List EBNFToken)
    (i f : Nat) :
    match_alternate p pn tokens i (f + 1) =
      (match tokens with
       | [] => .ok (false, none, [])
       | _ => alt_loop p pn (split_by_or pn.children) tokens i f) := by
  cases tokens <;> rfl

theorem alt_loop_succ (p : Parser) (pn : EBNFNode) (alts : List (List EBNFNode))
    (original : List EBNFToken) (i f : Nat) :
    alt_loop p pn alts original i (f + 1) =
      (match alts with
       | [] => .ok (false, none, original)
       | alt :: rest =>
         match match_sequence p pn.token.lexeme alt original (i + 1) f with
         | .error (.valueError _) => alt_loop p pn rest original i f
         | .error e => .error e
         | .ok (true, found, remaining) =>
           .ok (true, some (.mk (.tok pn.token) found), remaining)
         | .ok (false, _, _) => alt_loop p pn rest original i f) := by
  cases alts with
  | nil => rfl
  | cons alt rest =>
    have key : ∀ r : SRes,
        toM (match r with
             | .error (.valueError m) => runMatch p (.altLoop pn rest original i) f
             | .error e => .error e
             | .ok (true, found, remaining) =>
               mInj (.ok (true, some (.mk (.tok pn.token) found), remaining))
             | .ok (false, _, _) => runMatch p (.altLoop pn rest original i) f) =
          (match r with
           | .error (.valueError m) => alt_loop p pn rest original i f
           | .error e => .error e
           | .ok (true, found, remaining) =>
             .ok (true, some (.mk (.tok pn.token) found), remaining)
           | .ok (false, _, _) => alt_loop p pn rest original i f) := by
      rintro (e | ⟨ok, found, rem⟩)
      · cases e <;> rfl
      · cases ok <;> rfl
    exact key (match_sequence p pn.token.lexeme alt original (i + 1) f)

theorem match_sequence_succ (p : Parser) (name : String) (originals : List EBNFNode)
    (tokens : List EBNFToken) (i f : Nat) :
    match_sequence p name originals tokens i (f + 1) =
      seq_loop p name originals tokens tokens [] none i f := rfl

theorem seq_loop_succ (p : Parser) (name : String) (expected : List EBNFNode)
    (tokens : List EBNFToken) (orig : List EBNFToken) (acc : List CSTNode)
    (okSt : Option Bool) (i f : Nat) :
    seq_loop p name expected tokens orig acc okSt i (f + 1) =
      (match expected with
       | [] =>
         match okSt with
         | none => .error .unboundLocal
         | some ok => .ok (ok, acc, tokens)
       | this :: restExp =>
         match tokens with
         | [] =>
           if this.oneormore then
             .error (.syntaxError ("Expected " ++ this.pystr ++ " and found nothing"))
           else .ok (false, [], orig)
         | _ =>
           match match_node p this tokens (i + 1) f with
           | .error e => .error e
           | .ok (ok, some node, toks) =>
             seq_loop p name restExp toks orig (acc ++ node.children) (some ok) i f
           | .ok (_, none, toks) => .ok (false, acc, toks)) := by
  cases expected with
  | nil => cases okSt <;> rfl
  | cons this restExp =>
    cases tokens with
    | nil =>
      unfold seq_loop runMatch
      exact toS_sInj _
    | cons t0 ts =>
      have key : ∀ r : MRes,
          toS (match r with
               | .error e => .error e
               | .ok (ok, some node, toks) =>
                 runMatch p (.seqLoop name restExp toks orig (acc ++ node.children) (some ok) i) f
               | .ok (_, none, toks) => sInj (.ok (false, acc, toks))) =
            (match r with
             | .error e => .error e
             | .ok (ok, some node, toks) =>
               seq_loop p name restExp toks orig (acc ++ node.children) (some ok) i f
             | .ok (_, none, toks) => .ok (false, acc, toks)) := by
        rintro (e | ⟨ok, node?, toks⟩)
        · rfl
        · cases node? <;> rfl
      exact key (match_node p this (t0 :: ts) (i + 1) f)

/-- C1: REFUTED, code bug.  ebnf.py lines 184-188 do rewrite the symbol of
the node about to be returned when a closer is immediately followed by a
suffix meta-token, but the caller (line 166) then unconditionally overwrites
the returned child's symbol with SEQ_MAP of the opener.  For the token stream
of ( "a" )* the group node therefore ends up SEQUENCE, not REPEATING, while
the bracket form of the same inner sequence yields REPEATING: the two forms
do not compile to equivalent parser-node trees. -/
theorem c1_suffix_rewrite_clobbered :
    make_parser_node "r" [⟨.STARTGROUP, "("⟩, ⟨.LITERAL, "a"⟩, ⟨.ENDGROUP, ")"⟩, ⟨.REP, "*"⟩]
        none [] 20
      = .ok (some (.mk ⟨.SEQUENCE, "r"⟩ [.mk ⟨.SEQUENCE, "r-1"⟩ [.mk ⟨.LITERAL, "a"⟩ []]]),
             [], [("r", 1)])
    ∧ make_parser_node "r" [⟨.STARTREPEAT, "\x7b"⟩, ⟨.LITERAL, "a"⟩, ⟨.ENDREPEAT, "\x7d"⟩]
        none [] 20
      = .ok (some (.mk ⟨.SEQUENCE, "r"⟩ [.mk ⟨.REPEATING, "r-1"⟩ [.mk ⟨.LITERAL, "a"⟩ []]]),
             [], [("r", 1)])
    ∧ Sym.SEQUENCE ≠ Sym.REPEATING :=
  ⟨rfl, rfl, by decide⟩

/-- C10: CONFIRMED.  A body referencing the never-defined rule x compiles
fine (the rule table simply has no entry for x), and the error only surfaces
at parse time when the matcher reaches the RULE leaf and match_rule raises
SyntaxError No rule for x. -/
theorem c10_undefined_rule :
    ∃ p, EBNFParser_init "s := x;" = .ok p
      ∧ p.rules.lookup "x" = none
      ∧ parse p [tB] 30 = .error (.syntaxError "No rule for x") :=
  ⟨⟨[("s", some (.mk ⟨.SEQUENCE, "s"⟩ [.mk ⟨.RULE, "x"⟩ []]))], [("s", .ebnfNT "s")], "s", true⟩,
   rfl, rfl, rfl⟩

/-- C9, counterexample: parsing the empty input against r := < "a" >; fails
with the UnexpectedEndOfInput guard of match (ebnf.py line 374), not with the
RequiredGroupMissing (Missing group) error of match_one_or_more. -/
theorem c9_empty_input_counterexample :
    ∃ p, EBNFParser_init g9 = .ok p
      ∧ parse p [] 30 = .error (.syntaxError "Unexpected end of tokens for EBNFNode <seq:r>")
      ∧ isMissingGroup (.syntaxError "Unexpected end of tokens for EBNFNode <seq:r>") = false :=
  ⟨p9val, rfl, rfl, rfl⟩

/-- C9, amended: on empty input the match method raises the unexpected-end
SyntaxError before ATLEASTONCE is ever attempted; the Missing group error of
match_one_or_more arises only when tokens remain but the required group does
not match, e.g. on input b. -/
theorem c9_empty_input_amended :
    ∃ p, EBNFParser_init g9 = .ok p
      ∧ parse p [] 30 = .error (.syntaxError "Unexpected end of tokens for EBNFNode <seq:r>")
      ∧ parse p [tB] 30 = .error (.syntaxError ("Missing group: " ++ tokensStr [tB]))
      ∧ isMissingGroup (.syntaxError ("Missing group: " ++ tokensStr [tB])) = true :=
  ⟨p9val, rfl, rfl, rfl, rfl⟩

/-- C8, counterexample: in brutus/ebnf.py the meta-lexer has no pattern for
the suffix characters, so the grammar text r := {"a"}*; is rejected during
meta-tokenization with a lexical error at the star, and never reaches the
illegal-mix SyntaxError of make_parser_node. -/
theorem c8_suffix_mix_counterexample :
    EBNFParser_init g8 = .error (.lexicalError "no pattern matches at *")
    ∧ ∀ msg, EBNFParser_init g8 ≠ .error (.syntaxError msg) := by
  refine ⟨rfl, ?_⟩
  intro msg h
  rw [show EBNFParser_init g8 = .error (.lexicalError "no pattern matches at *") from rfl] at h
  simp at h

/-- C8, amended: on a meta-token stream in which an ENDREPEAT or ENDOPTIONAL
closer that matches the expected end token is immediately followed by a REP,
OPT or ATL suffix token, make_parser_node raises the illegal-mix SyntaxError;
at grammar-text level however compilation fails earlier with a lexical error
because the meta-lexer has no suffix patterns (see the counterexample). -/
theorem c8_illegal_mix_amended (name lexC lexS : String) (csym ssym : Sym)
    (rest : List EBNFToken) (this : EBNFNode) (gc : List (String × Nat)) (f : Nat)
    (hcl : csym = .ENDREPEAT ∨ csym = .ENDOPTIONAL)
    (hsuf : ssym = .REP ∨ ssym = .OPT ∨ ssym = .ATL) :
    mpn_loop name this (⟨csym, lexC⟩ :: ⟨ssym, lexS⟩ :: rest) (some csym) gc (f + 1)
      = .error (.syntaxError ("Illegal mix of brackets and suffixes in " ++ name))
    ∧ make_parser_node name (⟨csym, lexC⟩ :: ⟨ssym, lexS⟩ :: rest) (some csym) gc (f + 2)
      = .error (.syntaxError ("Illegal mix of brackets and suffixes in " ++ name)) := by
  rcases hcl with h | h <;> subst h <;>
    (rcases hsuf with h' | h' | h' <;> subst h' <;> exact ⟨rfl, rfl⟩)

/-- C8, witness for the amended theorem at a concrete input. -/
theorem c8_illegal_mix_amended_witness :
    ((Sym.ENDREPEAT = Sym.ENDREPEAT ∨ Sym.ENDREPEAT = Sym.ENDOPTIONAL)
      ∧ (Sym.REP = Sym.REP ∨ Sym.REP = Sym.OPT ∨ Sym.REP = Sym.ATL))
    ∧ (mpn_loop "r" (.mk ⟨.SEQUENCE, "r"⟩ []) [⟨.ENDREPEAT, "\x7d"⟩, ⟨.REP, "*"⟩]
          (some .ENDREPEAT) [] 1
        = .error (.syntaxError ("Illegal mix of brackets and suffixes in " ++ "r"))
      ∧ make_parser_node "r" [⟨.ENDREPEAT, "\x7d"⟩, ⟨.REP, "*"⟩] (some .ENDREPEAT) [] 2
        = .error (.syntaxError ("Illegal mix of brackets and suffixes in " ++ "r"))) :=
  ⟨⟨Or.inl rfl, Or.inl rfl⟩,
   c8_illegal_mix_amended "r" "\x7d" "*" .ENDREPEAT .REP [] (.mk ⟨.SEQUENCE, "r"⟩ []) [] 0
     (Or.inl rfl) (Or.inl rfl)⟩

/-- C3, counterexample: the sequence [ "a" , "b" ] against tokens a, c fails
on its second child, and match_sequence returns the tokens as they stood at
the failing child (the a already consumed), not the original token list. -/
theorem c3_sequence_restore_counterexample :
    match_sequence p0 "n" [litA, litB] [tA, tC] 1 20
      = .ok (false, [.mk (.tok tA) []], [tC])
    ∧ ([tC] : List EBNFToken) ≠ [tA, tC] :=
  ⟨rfl, by decide⟩

/-- C3, amended: when a child of the sequence returns no node, the loop of
match_sequence aborts with ok false and the token list returned by that
failing child, earlier consumption kept; the original token list at sequence
start is restored only on the out-of-tokens path (and then with an empty
found list), provided the pending child is not an at-least-once group. -/
theorem c3_sequence_failure_tokens_amended (p : Parser) (name : String)
    (this : EBNFNode) (restExp : List EBNFNode) (t0 : EBNFToken)
    (ts orig toks' : List EBNFToken) (acc : List CSTNode) (okSt : Option Bool)
    (i f : Nat) (ok : Bool) :
    (match_node p this (t0 :: ts) (i + 1) f = .ok (ok, none, toks') →
      seq_loop p name (this :: restExp) (t0 :: ts) orig acc okSt i (f + 1)
        = .ok (false, acc, toks'))
    ∧ (this.oneormore = false →
      seq_loop p name (this :: restExp) [] orig acc okSt i (f + 1) = .ok (false, [], orig)) := by
  constructor
  · intro h
    simp only [seq_loop_succ, h]
  · intro h
    simp only [seq_loop_succ, h, Bool.false_eq_true, if_false]

/-- C3, witness for the amended theorem at concrete inputs. -/
theorem c3_sequence_failure_tokens_amended_witness :
    (match_node p0 litB [tC] 2 10 = .ok (false, none, [tC])
      ∧ litB.oneormore = false)
    ∧ (seq_loop p0 "n" [litB] [tC] [tA, tC] [.mk (.tok tA) []] (some true) 1 11
        = .ok (false, [.mk (.tok tA) []], [tC])
      ∧ seq_loop p0 "n" [litB] [] [tA, tC] [.mk (.tok tA) []] (some true) 1 11
        = .ok (false, [], [tA, tC])) :=
  ⟨⟨rfl, rfl⟩,
   (c3_sequence_failure_tokens_amended p0 "n" litB [] tC [] [tA, tC] [tC]
       [.mk (.tok tA) []] (some true) 1 10 false).1 rfl,
   (c3_sequence_failure_tokens_amended p0 "n" litB [] tC [] [tA, tC] [tC]
       [.mk (.tok tA) []] (some true) 1 10 false).2 rfl⟩

/-- C4, counterexample: the rule x := "a" does not match token b, yet
match_terminal on the RULE leaf for x returns ok true with an empty node and
the tokens unchanged, ignoring the recursive failure. -/
theorem c4_rule_leaf_counterexample :
    match_terminal p4x ruleLeafX [tB] 1 20 = .ok (true, some (.mk (.str "x") []), [tB])
    ∧ match_rule p4x "x" [tB] 2 19 = .ok (false, none, [tB]) :=
  ⟨rfl, rfl⟩

/-- C4, amended: on a RULE leaf with a non-empty token list, match_terminal
returns ok true no matter what the recursive match_rule call returned; when
the referenced rule fails, the leaf commits an empty match (a childless node,
tokens as the recursive call left them) instead of reporting ok false. -/
theorem c4_rule_leaf_amended (p : Parser) (pn : EBNFNode) (t0 : EBNFToken)
    (rest toks' : List EBNFToken) (i f : Nat) (ok : Bool)
    (hsym : pn.token.symbol = .RULE)
    (hrule : match_rule p pn.token.lexeme (t0 :: rest) (i + 1) f = .ok (ok, none, toks')) :
    match_terminal p pn (t0 :: rest) i (f + 1)
      = .ok (true, some (.mk (.str pn.token.lexeme) []), toks') := by
  simp only [match_terminal_succ, hsym, hrule]
  rfl

/-- C4, witness for the amended theorem at a concrete input. -/
theorem c4_rule_leaf_amended_witness :
    (ruleLeafX.token.symbol = Sym.RULE
      ∧ match_rule p4x "x" [tB] 2 19 = .ok (false, none, [tB]))
    ∧ match_terminal p4x ruleLeafX [tB] 1 20 = .ok (true, some (.mk (.str "x") []), [tB]) :=
  ⟨⟨rfl, rfl⟩, c4_rule_leaf_amended p4x ruleLeafX tB [] [tB] 1 19 false rfl rfl⟩

theorem match_node_cons (p : Parser) (pn : EBNFNode) (t0 : EBNFToken)
    (ts : List EBNFToken) (i f : Nat) :
    match_node p pn (t0 :: ts) i (f + 1) =
      (if pn.token.symbol.is_terminal then match_terminal p pn (t0 :: ts) i f
       else match_nonterminal p pn (t0 :: ts) i f) := by
  rw [match_node_succ]

theorem match_nonterminal_some (p : Parser) (pn : EBNFNode) (t0 : EBNFToken)
    (ts : List EBNFToken) (i f : Nat) (sym : Sym)
    (hlk : p.symbolTable.lookup (baseName pn.token.lexeme) = some sym) :
    match_nonterminal p pn (t0 :: ts) i (f + 1) =
      (if pn.alternate then
         ntFinish ⟨sym, pn.token.lexeme⟩ [] (match_alternate p pn (t0 :: ts) (i + 1) f)
       else if pn.repeating then
         ntFinish ⟨sym, pn.token.lexeme⟩ [] (match_repeating p pn (t0 :: ts) (i + 1) f)
       else if pn.optional then
         ntFinish ⟨sym, pn.token.lexeme⟩ [] (match_optional p pn (t0 :: ts) (i + 1) f)
       else if pn.oneormore then
         match match_one_or_more p pn (t0 :: ts) (i + 1) f with
         | .error e => .error e
         | .ok (ok, child?, toks) =>
           if ok = false then .error (.syntaxError "Did not find required seqence at least once")
           else ntFinish ⟨sym, pn.token.lexeme⟩ [] (.ok (ok, child?, toks))
       else if pn.token.symbol = .SEQUENCE then
         match match_sequence p pn.token.lexeme pn.children (t0 :: ts) (i + 1) f with
         | .error e => .error e
         | .ok (_, found, toks) => ntFinish ⟨sym, pn.token.lexeme⟩ found (.ok (true, none, toks))
       else .error (.syntaxError "ran out of options in match_nonterminal")) := by
  rw [match_nonterminal_succ, hlk]

theorem seq_loop_cons (p : Parser) (name : String) (this : EBNFNode)
    (restExp : List EBNFNode) (t0 : EBNFToken) (ts orig : List EBNFToken)
    (acc : List CSTNode) (okSt : Option Bool) (i f : Nat) :
    seq_loop p name (this :: restExp) (t0 :: ts) orig acc okSt i (f + 1) =
      (match match_node p this (t0 :: ts) (i + 1) f with
       | .error e => .error e
       | .ok (ok, some node, toks) =>
         seq_loop p name restExp toks orig (acc ++ node.children) (some ok) i f
       | .ok (_, none, toks) => .ok (false, acc, toks)) := by
  rw [seq_loop_succ]

/-- C2, counterexample: compiling s := "a" { "b" } "c" and parsing tokens a c,
the zero-match repeat makes the enclosing match_sequence abort with ok false
(the pending child "c" is never attempted, c stays unconsumed) rather than
continue; the whole parse then fails with not-all-input-consumed. -/
theorem c2_zero_match_repeat_counterexample :
    EBNFParser_init g2 = .ok p2val
    ∧ match_sequence p2val "s" [litA, repB, litC] [tA, tC] 2 30
      = .ok (false, [.mk (.tok tA) []], [tC])
    ∧ parse p2val [tA, tC] 40
      = .error (.valueError ("not all input consumed " ++ tokensStr [tC])) :=
  ⟨rfl, rfl, rfl⟩

/-- C2, amended: when the child sequence of a REPEATING node fails at the
current position, match_repeating returns non-match (with the failing
attempt's token list), and a wrapping match_sequence treats that non-match as
a failing child: it aborts with ok false and its accumulated found list,
without attempting its remaining children. -/
theorem c2_zero_match_repeat_amended (p : Parser) (name lex : String)
    (cs restExp : List EBNFNode) (t0 : EBNFToken) (ts orig toks' : List EBNFToken)
    (xs acc : List CSTNode) (okSt : Option Bool) (sym : Sym) (i f : Nat)
    (hlk : p.symbolTable.lookup (baseName lex) = some sym)
    (hseq : match_sequence p lex cs (t0 :: ts) (i + 3) f = .ok (false, xs, toks')) :
    match_repeating p (.mk ⟨.REPEATING, lex⟩ cs) (t0 :: ts) (i + 2) (f + 2)
      = .ok (false, none, toks')
    ∧ seq_loop p name (.mk ⟨.REPEATING, lex⟩ cs :: restExp) (t0 :: ts) orig acc okSt i (f + 5)
      = .ok (false, acc, toks') := by
  have ha : match_repeating p (.mk ⟨.REPEATING, lex⟩ cs) (t0 :: ts) (i + 2) (f + 1 + 1)
      = .ok (false, none, toks') := by
    rw [match_repeating_succ, rep_loop_succ,
      show match_sequence p (EBNFNode.mk ⟨.REPEATING, lex⟩ cs).token.lexeme
          (EBNFNode.mk ⟨.REPEATING, lex⟩ cs).children (t0 :: ts) (i + 2 + 1) f
        = .ok (false, xs, toks') from hseq]
    rfl
  have hlk' : p.symbolTable.lookup
      (baseName (EBNFNode.mk ⟨.REPEATING, lex⟩ cs).token.lexeme) = some sym := hlk
  have hnt : match_nonterminal p (.mk ⟨.REPEATING, lex⟩ cs) (t0 :: ts) (i + 1) (f + 2 + 1)
      = .ok (false, none, toks') := by
    rw [match_nonterminal_some p (.mk ⟨.REPEATING, lex⟩ cs) t0 ts (i + 1) (f + 2) sym hlk',
      show match_repeating p (.mk ⟨.REPEATING, lex⟩ cs) (t0 :: ts) (i + 1 + 1) (f + 2)
        = .ok (false, none, toks') from ha]
    rfl
  have hnd : match_node p (.mk ⟨.REPEATING, lex⟩ cs) (t0 :: ts) (i + 1) (f + 3 + 1)
      = .ok (false, none, toks') := by
    rw [match_node_cons,
      show match_nonterminal p (.mk ⟨.REPEATING, lex⟩ cs) (t0 :: ts) (i + 1) (f + 3)
        = .ok (false, none, toks') from hnt]
    rfl
  refine ⟨ha, ?_⟩
  show seq_loop p name (.mk ⟨.REPEATING, lex⟩ cs :: restExp) (t0 :: ts) orig acc okSt i (f + 4 + 1)
    = .ok (false, acc, toks')
  rw [seq_loop_cons,
    show match_node p (.mk ⟨.REPEATING, lex⟩ cs) (t0 :: ts) (i + 1) (f + 4)
      = .ok (false, none, toks') from hnd]

/-- C2, witness for the amended theorem at the concrete parser of g2. -/
theorem c2_zero_match_repeat_amended_witness :
    (p2val.symbolTable.lookup (baseName "s-1") = some (.ebnfNT "s")
      ∧ match_sequence p2val "s-1" [litB] [tC] 3 10 = .ok (false, [], [tC]))
    ∧ (match_repeating p2val (.mk ⟨.REPEATING, "s-1"⟩ [litB]) [tC] 2 12
        = .ok (false, none, [tC])
      ∧ seq_loop p2val "s" (.mk ⟨.REPEATING, "s-1"⟩ [litB] :: [litC]) [tC] [tA, tC]
          [.mk (.tok tA) []] (some true) 0 15
        = .ok (false, [.mk (.tok tA) []], [tC])) :=
  ⟨⟨rfl, rfl⟩,
   c2_zero_match_repeat_amended p2val "s" "s-1" [litB] [litC] tC [] [tA, tC] [tC]
     [] [.mk (.tok tA) []] (some true) (.ebnfNT "s") 0 10 rfl rfl⟩

theorem alt_loop_nil (p : Parser) (pn : EBNFNode) (original : List EBNFToken) (i f : Nat) :
    alt_loop p pn [] original i (f + 1) = .ok (false, none, original) := rfl

theorem alt_loop_cons (p : Parser) (pn : EBNFNode) (alt : List EBNFNode)
    (rest : List (List EBNFNode)) (original : List EBNFToken) (i f : Nat) :
    alt_loop p pn (alt :: rest) original i (f + 1) =
      (match match_sequence p pn.token.lexeme alt original (i + 1) f with
       | .error (.valueError m) => alt_loop p pn rest original i f
       | .error e => .error e
       | .ok (true, found, remaining) =>
         .ok (true, some (.mk (.tok pn.token) found), remaining)
       | .ok (false, _, _) => alt_loop p pn rest original i f) := by
  rw [alt_loop_succ]

theorem alt_loop_all_fail (p : Parser) (pn : EBNFNode) :
    ∀ f alts original i c t',
      alt_loop p pn alts original i f = .ok (false, c, t') → c = none ∧ t' = original := by
  intro f
  induction f with
  | zero =>
    intro alts original i c t' h
    exact Except.noConfusion h
  | succ f ih =>
    intro alts original i c t' h
    cases alts with
    | nil =>
      have h' : (Except.ok (false, none, original) : MRes) = .ok (false, c, t') := h
      injection h' with htup
      injection htup with hb hp
      injection hp with hn ht
      exact ⟨hn.symm, ht.symm⟩
    | cons alt rest =>
      rw [alt_loop_cons] at h
      rcases hS : match_sequence p pn.token.lexeme alt original (i + 1) f with e | ⟨ok, found, rem⟩
      · rw [hS] at h
        cases e <;> first
          | exact ih rest original i c t' h
          | exact Except.noConfusion h
      · rw [hS] at h
        cases ok
        · exact ih rest original i c t' h
        · have h' : (Except.ok (true, some (CSTNode.mk (.tok pn.token) found), rem) : MRes)
              = .ok (false, c, t') := h
          injection h' with htup
          injection htup with hb hp
          exact absurd hb (by decide)

/-- C6: CONFIRMED.  match_alternate snapshots the token stream and runs each
alternative of split_by_or on that snapshot: when every alternative fails it
returns non-match with the snapshot restored (and no node); an alternative
that fails with ok false, or aborts with a ValueError, never prevents the
remaining alternatives from being attempted (the loop simply moves on, with
the original tokens again); and the first alternative whose match_sequence
succeeds is committed, with its consumed tokens standing. -/
theorem c6_alternate_spec (p : Parser) (pn : EBNFNode) (alt : List EBNFNode)
    (rest : List (List EBNFNode)) (original : List EBNFToken) (t0 : EBNFToken)
    (ts : List EBNFToken) (i f : Nat) :
    (∀ fa alts c t', alt_loop p pn alts original i fa = .ok (false, c, t') →
        c = none ∧ t' = original)
    ∧ (∀ c t', match_alternate p pn original i f = .ok (false, c, t') →
        c = none ∧ t' = original)
    ∧ (∀ ys zs, match_sequence p pn.token.lexeme alt original (i + 1) f = .ok (false, ys, zs) →
        alt_loop p pn (alt :: rest) original i (f + 1) = alt_loop p pn rest original i f)
    ∧ (∀ m, match_sequence p pn.token.lexeme alt original (i + 1) f = .error (.valueError m) →
        alt_loop p pn (alt :: rest) original i (f + 1) = alt_loop p pn rest original i f)
    ∧ (∀ found rem, match_sequence p pn.token.lexeme alt original (i + 1) f = .ok (true, found, rem) →
        alt_loop p pn (alt :: rest) original i (f + 1)
          = .ok (true, some (.mk (.tok pn.token) found), rem))
    ∧ match_alternate p pn (t0 :: ts) i (f + 1)
        = alt_loop p pn (split_by_or pn.children) (t0 :: ts) i f := by
  refine ⟨fun fa alts c t' h => alt_loop_all_fail p pn fa alts original i c t' h,
    ?_, ?_, ?_, ?_, ?_⟩
  · intro c t' h
    match f with
    | 0 => exact Except.noConfusion h
    | f + 1 =>
      rw [match_alternate_succ] at h
      match original with
      | [] =>
        have h' : (Except.ok (false, none, ([] : List EBNFToken)) : MRes) = .ok (false, c, t') := h
        injection h' with htup
        injection htup with hb hp
        injection hp with hn ht
        exact ⟨hn.symm, ht.symm⟩
      | v0 :: vs => exact alt_loop_all_fail p pn f (split_by_or pn.children) (v0 :: vs) i c t' h
  · intro ys zs h
    rw [alt_loop_cons, h]
  · intro m h
    rw [alt_loop_cons, h]
  · intro found rem h
    rw [alt_loop_cons, h]
  · rw [match_alternate_succ]

/-- C6, witness: the two alternatives of a-1 := "a" | "b" against token b.
The first alternative fails and the loop proceeds to the second, which wins;
all-fail against token c restores the token stream. -/
theorem c6_alternate_spec_witness :
    (match_sequence p0 "a-1" [litA] [tB] 2 10 = .ok (false, [], [tB])
      ∧ match_sequence p0 "a-1" [litB] [tB] 2 10 = .ok (true, [.mk (.tok tB) []], [])
      ∧ match_alternate p0 altPN [tC] 1 20 = .ok (false, none, [tC]))
    ∧ (alt_loop p0 altPN ([litA] :: [[litB]]) [tB] 1 11 = alt_loop p0 altPN [[litB]] [tB] 1 10
      ∧ alt_loop p0 altPN ([litB] :: []) [tB] 1 11
        = .ok (true, some (.mk (.tok altPN.token) [.mk (.tok tB) []]), [])
      ∧ (none : Option CSTNode) = none ∧ [tC] = [tC]) :=
  ⟨⟨rfl, rfl, rfl⟩,
   (c6_alternate_spec p0 altPN [litA] [[litB]] [tB] tB [] 1 10).2.2.1 [] [tB] rfl,
   (c6_alternate_spec p0 altPN [litB] [] [tB] tB [] 1 10).2.2.2.2.1 [.mk (.tok tB) []] [] rfl,
   (c6_alternate_spec p0 altPN [] [] [tC] tC [] 1 20).2.1 none [tC] rfl⟩

theorem match_rule_some (p : Parser) (rule : String) (pn : EBNFNode)
    (tokens : List EBNFToken) (i f : Nat)
    (hlk : (p.rules.lookup rule).join = some pn) :
    match_rule p rule tokens i (f + 1) =
      ruleFinish i (match_node p pn tokens (i + 1) f) := by
  rw [match_rule_succ, hlk]

theorem c5_seq_result :
    ∀ m, match_sequence p5val "s-1" [ruleLeafX] [tB] 5 m = .error .outOfFuel
      ∨ match_sequence p5val "s-1" [ruleLeafX] [tB] 5 m = .ok (true, [], [tB]) := by
  intro m
  match m with
  | 0 | 1 | 2 | 3 | 4 | 5 | 6 | 7 | 8 | 9 | 10 => exact Or.inl rfl
  | m + 11 => exact Or.inr rfl

theorem c5_rep_loop :
    ∀ m acc, rep_loop p5val repX [tB] acc 4 m = .error .outOfFuel := by
  intro m
  induction m with
  | zero => intro acc; rfl
  | succ m ih =>
    intro acc
    rw [rep_loop_succ]
    rcases c5_seq_result m with h | h
    · rw [show match_sequence p5val repX.token.lexeme repX.children [tB] (4 + 1) m
          = .error .outOfFuel from h]
    · rw [show match_sequence p5val repX.token.lexeme repX.children [tB] (4 + 1) m
          = .ok (true, [], [tB]) from h]
      exact ih (acc ++ [])

theorem c5_match_repeating :
    ∀ m, match_repeating p5val repX [tB] 4 m = .error .outOfFuel := by
  intro m
  cases m with
  | zero => rfl
  | succ m => exact c5_rep_loop m []

theorem c5_match_nonterminal :
    ∀ m, match_nonterminal p5val repX [tB] 3 m = .error .outOfFuel := by
  intro m
  cases m with
  | zero => rfl
  | succ m =>
    rw [match_nonterminal_some p5val repX tB [] 3 m (.ebnfNT "s") rfl,
      show match_repeating p5val repX [tB] (3 + 1) m = .error .outOfFuel
        from c5_match_repeating m]
    rfl

theorem c5_match_node :
    ∀ m, match_node p5val repX [tB] 3 m = .error .outOfFuel := by
  intro m
  cases m with
  | zero => rfl
  | succ m =>
    rw [match_node_cons,
      show match_nonterminal p5val repX [tB] 3 m = .error .outOfFuel
        from c5_match_nonterminal m]
    rfl

theorem c5_seq_loop :
    ∀ m, seq_loop p5val "s" [repX] [tB] [tB] [] none 2 m = .error .outOfFuel := by
  intro m
  cases m with
  | zero => rfl
  | succ m =>
    rw [seq_loop_cons,
      show match_node p5val repX [tB] (2 + 1) m = .error .outOfFuel from c5_match_node m]

theorem c5_match_sequence :
    ∀ m, match_sequence p5val "s" [repX] [tB] 2 m = .error .outOfFuel := by
  intro m
  cases m with
  | zero => rfl
  | succ m => exact c5_seq_loop m

theorem c5_nonterminal_root :
    ∀ m, match_nonterminal p5val rootS [tB] 1 m = .error .outOfFuel := by
  intro m
  cases m with
  | zero => rfl
  | succ m =>
    rw [match_nonterminal_some p5val rootS tB [] 1 m (.ebnfNT "s") rfl,
      show match_sequence p5val rootS.token.lexeme rootS.children [tB] (1 + 1) m
        = .error .outOfFuel from c5_match_sequence m]
    rfl

theorem c5_node_root :
    ∀ m, match_node p5val rootS [tB] 1 m = .error .outOfFuel := by
  intro m
  cases m with
  | zero => rfl
  | succ m =>
    rw [match_node_cons,
      show match_nonterminal p5val rootS [tB] 1 m = .error .outOfFuel
        from c5_nonterminal_root m]
    rfl

theorem c5_match_rule_s :
    ∀ m, match_rule p5val "s" [tB] 0 m = .error .outOfFuel := by
  intro m
  cases m with
  | zero => rfl
  | succ m =>
    rw [match_rule_some p5val "s" rootS [tB] 0 m rfl,
      show match_node p5val rootS [tB] (0 + 1) m = .error .outOfFuel from c5_node_root m]
    rfl

/-- C5: REFUTED, code bug.  The grammar s := { x }; x := "a"; compiles to
p5val, and on the single token b the repeat body match_sequence [RULE x]
succeeds while consuming nothing (rule x fails, but the RULE leaf commits an
empty match, the C4 fall-through), so the while-loop of match_repeating never
sees ok false and never exits: the run exhausts every fuel bound, i.e. the
parse does not terminate, contradicting the claim that parsing always runs to
completion or to an error. -/
theorem c5_match_repeating_diverges :
    EBNFParser_init g5 = .ok p5val
    ∧ (∀ m, match_sequence p5val "s-1" [ruleLeafX] [tB] 5 (m + 11) = .ok (true, [], [tB]))
    ∧ (∀ fuel, match_repeating p5val repX [tB] 4 fuel = .error .outOfFuel)
    ∧ (∀ fuel, parse p5val [tB] fuel = .error .outOfFuel) := by
  refine ⟨rfl, fun m => rfl, c5_match_repeating, fun fuel => c5_match_rule_s fuel⟩

theorem leafToksL_append (l m : List CSTNode) :
    leafToksL (l ++ m) = leafToksL l ++ leafToksL m := by
  induction l with
  | nil => simp [leafToksL]
  | cons c cs ih => simp [leafToksL, ih]

theorem RelL_refl (l : List CSTNode) : RelL l l := ⟨rfl, rfl⟩

theorem RelN_refl (a : CSTNode) : RelN a a := ⟨rfl, RelL_refl _⟩

theorem RelL_append {l₁ l₂ m₁ m₂ : List CSTNode} (h : RelL l₁ l₂) (h' : RelL m₁ m₂) :
    RelL (l₁ ++ m₁) (l₂ ++ m₂) :=
  ⟨by simp [h.1, h'.1], by simp [leafToksL_append, h.2, h'.2]⟩

theorem leafToks_eq_of_RelN {a b : CSTNode} (h : RelN a b) : leafToks a = leafToks b := by
  obtain ⟨hv, hlen, htoks⟩ := h
  cases a with
  | mk v₁ c₁ =>
    cases b with
    | mk v₂ c₂ =>
      simp only [CSTNode.val] at hv
      simp only [CSTNode.children] at hlen htoks
      subst hv
      cases c₁ with
      | nil =>
        cases c₂ with
        | nil => rfl
        | cons e es => simp at hlen
      | cons d ds =>
        cases c₂ with
        | nil => simp at hlen
        | cons e es => simpa [leafToks] using htoks

theorem RelL_single_of_RelN {a b : CSTNode} (h : RelN a b) : RelL [a] [b] :=
  ⟨rfl, by simp [leafToksL, leafToks_eq_of_RelN h]⟩

theorem RelR_mInj {r₁ r₂ : MRes} (h : RelR r₁ r₂) : RelOut (mInj r₁) (mInj r₂) := by
  rcases r₁ with e₁ | x₁ <;> rcases r₂ with e₂ | x₂
  · exact h
  · exact h.elim
  · exact h.elim
  · exact h

theorem RelS_sInj {r₁ r₂ : SRes} (h : RelS r₁ r₂) : RelOut (sInj r₁) (sInj r₂) := by
  rcases r₁ with e₁ | x₁ <;> rcases r₂ with e₂ | x₂
  · exact h
  · exact h.elim
  · exact h.elim
  · exact h

theorem RelOut_toM {o₁ o₂ : Except PyErr MOut} (h : RelOut o₁ o₂) :
    RelR (toM o₁) (toM o₂) := by
  rcases o₁ with e₁ | (x₁ | x₁) <;> rcases o₂ with e₂ | (x₂ | x₂) <;>
    first
      | exact h
      | exact h.elim
      | exact rfl

theorem RelOut_toS {o₁ o₂ : Except PyErr MOut} (h : RelOut o₁ o₂) :
    RelS (toS o₁) (toS o₂) := by
  rcases o₁ with e₁ | (x₁ | x₁) <;> rcases o₂ with e₂ | (x₂ | x₂) <;>
    first
      | exact h
      | exact h.elim
      | exact rfl

theorem relR_ofKids (wrap : EBNFToken) (t : List EBNFToken) {kids₁ kids₂ : List CSTNode}
    (hkids : RelL kids₁ kids₂) :
    RelR (wrapKids wrap kids₁ t) (wrapKids wrap kids₂ t) := by
  rcases kids₁ with _ | ⟨x, xs⟩ <;> rcases kids₂ with _ | ⟨y, ys⟩
  · exact ⟨rfl, trivial, rfl⟩
  · exact absurd hkids.1 (by simp)
  · exact absurd hkids.1 (by simp)
  · exact ⟨rfl, ⟨rfl, hkids⟩, rfl⟩

theorem ntFinish_rel (wrap : EBNFToken) {pre₁ pre₂ : List CSTNode} {r₁ r₂ : MRes}
    (hp : RelL pre₁ pre₂) (hr : RelR r₁ r₂) :
    RelR (ntFinish wrap pre₁ r₁) (ntFinish wrap pre₂ r₂) := by
  rcases r₁ with e₁ | ⟨ok₁, n₁, t₁⟩ <;> rcases r₂ with e₂ | ⟨ok₂, n₂, t₂⟩
  · exact hr
  · exact hr.elim
  · exact hr.elim
  · obtain ⟨hok, hn, ht⟩ := hr
    subst ht
    have hkids : RelL (pre₁ ++ kidsOf n₁) (pre₂ ++ kidsOf n₂) := by
      rcases n₁ with _ | c₁ <;> rcases n₂ with _ | c₂
      · exact RelL_append hp (RelL_refl [])
      · exact hn.elim
      · exact hn.elim
      · exact RelL_append hp hn.2
    exact relR_ofKids wrap t₁ hkids

theorem RelO_refl (o : Option CSTNode) : RelO o o := by
  cases o
  · trivial
  · exact RelN_refl _

theorem RelOut_refl (r : Except PyErr MOut) : RelOut r r := by
  rcases r with e | (⟨ok, n, t⟩ | ⟨ok, l, t⟩)
  · rfl
  · exact ⟨rfl, RelO_refl n, rfl⟩
  · exact ⟨rfl, RelL_refl l, rfl⟩

theorem relR_ruleFinish (i : Nat) {r₁ r₂ : MRes} (h : RelR r₁ r₂) :
    RelR (ruleFinish i r₁) (ruleFinish i r₂) := by
  rcases r₁ with e₁ | ⟨ok₁, n₁, t₁⟩ <;> rcases r₂ with e₂ | ⟨ok₂, n₂, t₂⟩
  · exact h
  · exact h.elim
  · exact h.elim
  · obtain ⟨hok, hn, ht⟩ := h
    subst hok; subst ht
    simp only [ruleFinish]
    by_cases hz : i = 0 ∧ t₁ ≠ []
    · simp only [if_pos hz]; exact rfl
    · simp only [if_neg hz]; exact ⟨rfl, hn, rfl⟩

theorem relR_ruleLeafFinish (b₁ b₂ : Bool) (lex : String) {r₁ r₂ : MRes}
    (h : RelR r₁ r₂) :
    RelR (ruleLeafFinish b₁ lex r₁) (ruleLeafFinish b₂ lex r₂) := by
  rcases r₁ with e₁ | ⟨ok₁, n₁, t₁⟩ <;> rcases r₂ with e₂ | ⟨ok₂, n₂, t₂⟩
  · exact h
  · exact h.elim
  · exact h.elim
  · obtain ⟨hok, hn, ht⟩ := h
    subst ht
    rcases n₁ with _ | ⟨v₁, k₁⟩ <;> rcases n₂ with _ | ⟨v₂, k₂⟩
    · exact ⟨rfl, ⟨rfl, RelL_refl _⟩, rfl⟩
    · exact hn.elim
    · exact hn.elim
    · obtain ⟨hv, hlen, htk⟩ := hn
      simp only [CSTNode.val] at hv
      simp only [CSTNode.children] at hlen htk
      subst hv
      rcases k₁ with _ | ⟨c₁, _ | ⟨d₁, k₁⟩⟩ <;> rcases k₂ with _ | ⟨c₂, _ | ⟨d₂, k₂⟩⟩
      · exact ⟨rfl, ⟨rfl, RelL_refl _⟩, rfl⟩
      · simp at hlen
      · simp at hlen
      · simp at hlen
      · cases b₁ <;> cases b₂
        · exact ⟨rfl, ⟨rfl, ⟨rfl, by simpa [leafToksL, leafToks, CSTNode.children] using htk⟩⟩, rfl⟩
        · exact ⟨rfl, ⟨rfl, ⟨rfl, by simpa [leafToksL, leafToks, CSTNode.children] using htk⟩⟩, rfl⟩
        · exact ⟨rfl, ⟨rfl, ⟨rfl, by simpa [leafToksL, leafToks, CSTNode.children] using htk⟩⟩, rfl⟩
        · exact ⟨rfl, ⟨rfl, ⟨rfl, htk⟩⟩, rfl⟩
      · simp at hlen
      · simp at hlen
      · simp at hlen
      · exact ⟨rfl, ⟨rfl, ⟨rfl, by simpa [leafToksL, leafToks, CSTNode.children] using htk⟩⟩, rfl⟩

/- The bisimulation: two parsers that share rules and symbol table but may
differ in collapse_tree produce related outputs on related calls, for every
fuel bound.  In particular every CST list ever accumulated has the same
length (so the emptiness branches agree) and the same leaf tokens on the two
sides. -/
theorem runMatch_collapse_rel (p₁ p₂ : Parser)
    (hrules : p₁.rules = p₂.rules) (hsym : p₁.symbolTable = p₂.symbolTable) :
    ∀ (f : Nat) (c₁ c₂ : MCall), RelCall c₁ c₂ →
      RelOut (runMatch p₁ c₁ f) (runMatch p₂ c₂ f) := by
  intro f
  induction f with
  | zero => intro c₁ c₂ hc; cases hc <;> exact rfl
  | succ f ih =>
    intro c₁ c₂ hc
    cases hc with
    | rule r toks i =>
      simp only [runMatch]
      rw [hrules]
      rcases (p₂.rules.lookup r).join with _ | pn
      · exact RelOut_refl _
      · exact RelR_mInj (relR_ruleFinish i
          (RelOut_toM (ih _ _ (RelCall.node pn toks (i + 1)))))
    | node pn toks i =>
      simp only [runMatch]
      rcases toks with _ | ⟨t0, rest⟩
      · exact RelOut_refl _
      · by_cases hT : pn.token.symbol.is_terminal = true
        · simp only [if_pos hT]
          exact RelR_mInj (RelOut_toM (ih _ _ (RelCall.term pn (t0 :: rest) i)))
        · simp only [if_neg hT]
          exact RelR_mInj (RelOut_toM (ih _ _ (RelCall.nonterm pn (t0 :: rest) i)))
    | term pn toks i =>
      simp only [runMatch]
      rcases toks with _ | ⟨t0, rest⟩
      · exact RelOut_refl _
      · by_cases hR : pn.token.symbol = Sym.RULE
        · simp only [if_pos hR]
          exact RelR_mInj (relR_ruleLeafFinish _ _ _
            (RelOut_toM (ih _ _ (RelCall.rule pn.token.lexeme (t0 :: rest) (i + 1)))))
        · simp only [if_neg hR]
          exact RelOut_refl _
    | nonterm pn toks i =>
      simp only [runMatch]
      rw [hsym]
      rcases p₂.symbolTable.lookup (baseName pn.token.lexeme) with _ | sym
      · exact RelOut_refl _
      · rcases toks with _ | ⟨t0, rest⟩
        · exact RelOut_refl _
        · by_cases hA : pn.alternate = true
          · simp only [if_pos hA]
            exact RelR_mInj (ntFinish_rel _ (RelL_refl [])
              (RelOut_toM (ih _ _ (RelCall.alt pn (t0 :: rest) (i + 1)))))
          · simp only [if_neg hA]
            by_cases hRp : pn.repeating = true
            · simp only [if_pos hRp]
              exact RelR_mInj (ntFinish_rel _ (RelL_refl [])
                (RelOut_toM (ih _ _ (RelCall.rep pn (t0 :: rest) (i + 1)))))
            · simp only [if_neg hRp]
              by_cases hO : pn.optional = true
              · simp only [if_pos hO]
                exact RelR_mInj (ntFinish_rel _ (RelL_refl [])
                  (RelOut_toM (ih _ _ (RelCall.opt pn (t0 :: rest) (i + 1)))))
              · simp only [if_neg hO]
                by_cases hM : pn.oneormore = true
                · simp only [if_pos hM]
                  have h₁ := RelOut_toM (ih _ _ (RelCall.oom pn (t0 :: rest) (i + 1)))
                  revert h₁
                  rcases toM (runMatch p₁ (.oom pn (t0 :: rest) (i + 1)) f)
                      with e₁ | ⟨ok₁, n₁, t₁⟩ <;>
                    rcases toM (runMatch p₂ (.oom pn (t0 :: rest) (i + 1)) f)
                      with e₂ | ⟨ok₂, n₂, t₂⟩ <;>
                    intro h₁
                  · exact h₁
                  · exact h₁.elim
                  · exact h₁.elim
                  · obtain ⟨hok, hn, ht⟩ := h₁
                    subst hok; subst ht
                    cases ok₁
                    · exact rfl
                    · have hr : RelR (.ok (true, n₁, t₁)) (.ok (true, n₂, t₁)) :=
                        ⟨rfl, hn, rfl⟩
                      exact RelR_mInj (ntFinish_rel _ (RelL_refl []) hr)
                · simp only [if_neg hM]
                  by_cases hS : pn.token.symbol = Sym.SEQUENCE
                  · simp only [if_pos hS]
                    have h₁ := RelOut_toS
                      (ih _ _ (RelCall.seq pn.token.lexeme pn.children (t0 :: rest) (i + 1)))
                    revert h₁
                    rcases toS (runMatch p₁ (.seq pn.token.lexeme pn.children (t0 :: rest) (i + 1)) f)
                        with e₁ | ⟨ok₁, l₁, t₁⟩ <;>
                      rcases toS (runMatch p₂ (.seq pn.token.lexeme pn.children (t0 :: rest) (i + 1)) f)
                        with e₂ | ⟨ok₂, l₂, t₂⟩ <;>
                      intro h₁
                    · exact h₁
                    · exact h₁.elim
                    · exact h₁.elim
                    · obtain ⟨hok, hl, ht⟩ := h₁
                      subst ht
                      have hr : RelR (.ok (true, none, t₁)) (.ok (true, none, t₁)) :=
                        ⟨rfl, trivial, rfl⟩
                      exact RelR_mInj (ntFinish_rel _ hl hr)
                  · simp only [if_neg hS]
                    exact RelOut_refl _
    | opt pn toks i =>
      simp only [runMatch]
      have h₁ := RelOut_toS (ih _ _ (RelCall.seq pn.token.lexeme pn.children toks (i + 1)))
      revert h₁
      rcases toS (runMatch p₁ (.seq pn.token.lexeme pn.children toks (i + 1)) f)
          with e₁ | ⟨ok₁, l₁, t₁⟩ <;>
        rcases toS (runMatch p₂ (.seq pn.token.lexeme pn.children toks (i + 1)) f)
          with e₂ | ⟨ok₂, l₂, t₂⟩ <;>
        intro h₁
      · exact h₁
      · exact h₁.elim
      · exact h₁.elim
      · obtain ⟨hok, hl, ht⟩ := h₁
        subst hok; subst ht
        cases ok₁
        · exact ⟨rfl, trivial, rfl⟩
        · exact ⟨rfl, ⟨rfl, hl⟩, rfl⟩
    | oom pn toks i =>
      simp only [runMatch]
      have h₁ := RelOut_toS (ih _ _ (RelCall.seq pn.token.lexeme pn.children toks (i + 1)))
      revert h₁
      rcases toS (runMatch p₁ (.seq pn.token.lexeme pn.children toks (i + 1)) f)
          with e₁ | ⟨ok₁, l₁, t₁⟩ <;>
        rcases toS (runMatch p₂ (.seq pn.token.lexeme pn.children toks (i + 1)) f)
          with e₂ | ⟨ok₂, l₂, t₂⟩ <;>
        intro h₁
      · exact h₁
      · exact h₁.elim
      · exact h₁.elim
      · obtain ⟨hok, hl, ht⟩ := h₁
        subst hok; subst ht
        cases ok₁
        · exact rfl
        · exact ih _ _ (RelCall.oomLoop pn l₁ l₂ t₁ [] [] i hl (RelL_refl []))
    | oomLoop pn ch₁ ch₂ toks acc₁ acc₂ i hch hacc =>
      simp only [runMatch]
      have h₁ := RelOut_toS (ih _ _ (RelCall.seq pn.token.lexeme pn.children toks (i + 1)))
      revert h₁
      rcases toS (runMatch p₁ (.seq pn.token.lexeme pn.children toks (i + 1)) f)
          with e₁ | ⟨ok₁, l₁, t₁⟩ <;>
        rcases toS (runMatch p₂ (.seq pn.token.lexeme pn.children toks (i + 1)) f)
          with e₂ | ⟨ok₂, l₂, t₂⟩ <;>
        intro h₁
      · exact h₁
      · exact h₁.elim
      · exact h₁.elim
      · obtain ⟨hok, hl, ht⟩ := h₁
        subst hok; subst ht
        cases ok₁
        · exact RelR_mInj (relR_ofKids _ _ (RelL_append hacc hch))
        · exact ih _ _ (RelCall.oomLoop pn l₁ l₂ t₁ (acc₁ ++ ch₁) (acc₂ ++ ch₂) i hl
            (RelL_append hacc hch))
    | rep pn toks i =>
      simp only [runMatch]
      exact ih _ _ (RelCall.repLoop pn toks [] [] i (RelL_refl []))
    | repLoop pn toks acc₁ acc₂ i hacc =>
      simp only [runMatch]
      have h₁ := RelOut_toS (ih _ _ (RelCall.seq pn.token.lexeme pn.children toks (i + 1)))
      revert h₁
      rcases toS (runMatch p₁ (.seq pn.token.lexeme pn.children toks (i + 1)) f)
          with e₁ | ⟨ok₁, l₁, t₁⟩ <;>
        rcases toS (runMatch p₂ (.seq pn.token.lexeme pn.children toks (i + 1)) f)
          with e₂ | ⟨ok₂, l₂, t₂⟩ <;>
        intro h₁
      · exact h₁
      · exact h₁.elim
      · exact h₁.elim
      · obtain ⟨hok, hl, ht⟩ := h₁
        subst hok; subst ht
        cases ok₁
        · exact RelR_mInj (relR_ofKids _ _ hacc)
        · exact ih _ _ (RelCall.repLoop pn t₁ (acc₁ ++ l₁) (acc₂ ++ l₂) i
            (RelL_append hacc hl))
    | alt pn toks i =>
      simp only [runMatch]
      rcases toks with _ | ⟨t0, rest⟩
      · exact RelOut_refl _
      · exact ih _ _ (RelCall.altLoop pn (split_by_or pn.children) (t0 :: rest) i)
    | altLoop pn alts original i =>
      simp only [runMatch]
      rcases alts with _ | ⟨alt, rest⟩
      · exact RelOut_refl _
      · have key : ∀ r₁ r₂ : SRes, RelS r₁ r₂ →
            RelOut
              (match r₁ with
               | .error (.valueError _) => runMatch p₁ (.altLoop pn rest original i) f
               | .error e => .error e
               | .ok (true, found, remaining) =>
                 mInj (.ok (true, some (.mk (.tok pn.token) found), remaining))
               | .ok (false, _, _) => runMatch p₁ (.altLoop pn rest original i) f)
              (match r₂ with
               | .error (.valueError _) => runMatch p₂ (.altLoop pn rest original i) f
               | .error e => .error e
               | .ok (true, found, remaining) =>
                 mInj (.ok (true, some (.mk (.tok pn.token) found), remaining))
               | .ok (false, _, _) => runMatch p₂ (.altLoop pn rest original i) f) := by
          rintro (e₁ | ⟨ok₁, l₁, t₁⟩) (e₂ | ⟨ok₂, l₂, t₂⟩) h₁
          · have he : e₁ = e₂ := h₁
            subst he
            cases e₁ <;>
              first
                | exact ih _ _ (RelCall.altLoop pn rest original i)
                | exact rfl
          · exact h₁.elim
          · exact h₁.elim
          · obtain ⟨hok, hl, ht⟩ := h₁
            subst hok; subst ht
            cases ok₁
            · exact ih _ _ (RelCall.altLoop pn rest original i)
            · exact ⟨rfl, ⟨rfl, hl⟩, rfl⟩
        exact key _ _ (RelOut_toS (ih _ _ (RelCall.seq pn.token.lexeme alt original (i + 1))))
    | seq name originals toks i =>
      simp only [runMatch]
      exact ih _ _ (RelCall.seqLoop name originals toks toks [] [] none i (RelL_refl []))
    | seqLoop name exp toks orig acc₁ acc₂ okSt i hacc =>
      simp only [runMatch]
      rcases exp with _ | ⟨this, restExp⟩
      · rcases okSt with _ | ok
        · exact RelOut_refl _
        · exact ⟨rfl, hacc, rfl⟩
      · rcases toks with _ | ⟨t0, ts⟩
        · exact RelOut_refl _
        · have key : ∀ r₁ r₂ : MRes, RelR r₁ r₂ →
              RelOut
                (match r₁ with
                 | .error e => .error e
                 | .ok (ok, some node, toks) =>
                   runMatch p₁ (.seqLoop name restExp toks orig (acc₁ ++ node.children)
                     (some ok) i) f
                 | .ok (_, none, toks) => sInj (.ok (false, acc₁, toks)))
                (match r₂ with
                 | .error e => .error e
                 | .ok (ok, some node, toks) =>
                   runMatch p₂ (.seqLoop name restExp toks orig (acc₂ ++ node.children)
                     (some ok) i) f
                 | .ok (_, none, toks) => sInj (.ok (false, acc₂, toks))) := by
            rintro (e₁ | ⟨ok₁, n₁, t₁⟩) (e₂ | ⟨ok₂, n₂, t₂⟩) h₁
            · exact h₁
            · exact h₁.elim
            · exact h₁.elim
            · obtain ⟨hok, hn, ht⟩ := h₁
              subst hok; subst ht
              rcases n₁ with _ | node₁ <;> rcases n₂ with _ | node₂
              · exact ⟨rfl, hacc, rfl⟩
              · exact hn.elim
              · exact hn.elim
              · exact ih _ _ (RelCall.seqLoop _ _ _ _ _ _ _ _ (RelL_append hacc hn.2))
          exact key _ _ (RelOut_toM (ih _ _ (RelCall.node this (t0 :: ts) (i + 1))))

/-- C7: for every parser and every input whose parse with tree collapsing
enabled returns a result, the same parse with collapsing disabled returns a
result with the same ok flag and the same remaining tokens, and the two CSTs
carry the same sequence of leaf tokens in the same order: collapsing only
removes unary intermediate wrapper nodes and never drops or reorders a
consumed token. -/
theorem c7_collapse_preserves_leaf_tokens (p : Parser) (tokens : List EBNFToken)
    (fuel : Nat) (ok : Bool) (n₁ : Option CSTNode) (rest : List EBNFToken)
    (h : parse (withCollapse p true) tokens fuel = .ok (ok, n₁, rest)) :
    ∃ n₂ : Option CSTNode,
      parse (withCollapse p false) tokens fuel = .ok (ok, n₂, rest)
        ∧ n₁.map leafToks = n₂.map leafToks := by
  have hrel : RelR (parse (withCollapse p true) tokens fuel)
      (parse (withCollapse p false) tokens fuel) := by
    by_cases hs : p.startRule = ""
    · simp only [parse, withCollapse, if_pos hs]
      exact rfl
    · simp only [parse, withCollapse, match_rule, if_neg hs]
      exact RelOut_toM (runMatch_collapse_rel
        ⟨p.rules, p.symbolTable, p.startRule, true⟩
        ⟨p.rules, p.symbolTable, p.startRule, false⟩ rfl rfl fuel _ _
        (RelCall.rule p.startRule tokens 0))
  rw [h] at hrel
  rcases hq : parse (withCollapse p false) tokens fuel with e | ⟨ok₂, n₂, t₂⟩
  · rw [hq] at hrel
    exact hrel.elim
  · rw [hq] at hrel
    obtain ⟨hok, hn, ht⟩ := hrel
    subst hok; subst ht
    refine ⟨n₂, rfl, ?_⟩
    rcases n₁ with _ | a <;> rcases n₂ with _ | b
    · rfl
    · exact hn.elim
    · exact hn.elim
    · simp [leafToks_eq_of_RelN hn]

/-- C7 witness: the grammar s := x; x := A; on the single token a; with
collapsing on, the unary rule-x wrapper disappears from the CST, and the
collapsed and uncollapsed parses agree on ok flag, remaining tokens and leaf
tokens. -/
theorem c7_collapse_preserves_leaf_tokens_witness :
    EBNFParser_init g7 = .ok p7val
    ∧ parse (withCollapse p7val true) [tok7] 20 = .ok (true, some c7node, [])
    ∧ ∃ n₂ : Option CSTNode,
        parse (withCollapse p7val false) [tok7] 20 = .ok (true, n₂, [])
          ∧ (some c7node).map leafToks = n₂.map leafToks :=
  ⟨rfl, rfl, c7_collapse_preserves_leaf_tokens p7val [tok7] 20 true (some c7node) [] rfl⟩

end Brutus
